import Mathlib

/-!
Verification of the mekatek-go builder client (package `mekabuild` and the
earlier `mekatek` package).

The Go sources are shallowly embedded: byte buffers become `List Nat` (each
element a byte value), Go `uint64` / `int64` values become `Nat` / `Int`
with explicit reduction modulo `2 ^ 64` where the machine width matters,
fallible operations return `Except`, and the stateful `Builder` becomes an
explicit state-passing step function.  External effects (the HTTP client,
`encoding/json`, the remote signer) are modelled as environment parameters
recording the outcome of each call, and the sequence of outgoing calls is
recorded in an explicit event trace.
-/

namespace Mekabuild

/-! ## Canonical byte encodings (`mekabuild/types.go`)

Go byte slices are modelled as `List Nat`; Go strings enter the encoders via
`[]byte(s)`, i.e. as their UTF-8 bytes, so string-typed fields are also
modelled as byte lists. -/

/-- The bytes of an ASCII string literal, as used by `[]byte(...)` on the
domain-separation tags (all tags are pure ASCII, so each `Char.toNat` is the
byte value). -/
def strBytes (s : String) : List Nat :=
  s.toList.map Char.toNat

/-- `binary.Write(w, binary.LittleEndian, v)` for a `uint64` value: the eight
bytes of `n` in little-endian order.  (`binary.Write` serialises exactly eight
bytes; values are below `2 ^ 64` in Go by typing.) -/
def le64 (n : Nat) : List Nat :=
  [n % 256, n / 2 ^ 8 % 256, n / 2 ^ 16 % 256, n / 2 ^ 24 % 256,
   n / 2 ^ 32 % 256, n / 2 ^ 40 % 256, n / 2 ^ 48 % 256, n / 2 ^ 56 % 256]

/-- The two's-complement `uint64` image of an `int64` value, i.e. the bit
pattern `binary.Write` serialises for an `int64`. -/
def int64Bits (i : Int) : Nat :=
  (i % (2 ^ 64 : Int)).toNat

/-- `mustEncode(&sb, bs)` for a byte slice `bs`: `binary.Write` appends the
raw bytes to the buffer. -/
def writeBytes (buf bs : List Nat) : List Nat :=
  buf ++ bs

/-- `mustEncode(&sb, uint64(n))`: append the eight little-endian bytes. -/
def writeUint64 (buf : List Nat) (n : Nat) : List Nat :=
  buf ++ le64 n

/-- `mustEncode(&sb, i)` for an `int64` value: append the eight little-endian
bytes of its two's-complement bit pattern. -/
def writeInt64 (buf : List Nat) (i : Int) : List Nat :=
  buf ++ le64 (int64Bits i)

/-- `BuildBlockRequestSignableBytes` (mekabuild/types.go): the sequence of
`mustEncode` calls into a fresh `bytes.Buffer`, with the `txs` loop as a left
fold over the transaction list. -/
def BuildBlockRequestSignableBytes (chainID : List Nat) (height : Int)
    (validatorAddr : List Nat) (maxBytes maxGas : Int)
    (txs : List (List Nat)) : List Nat :=
  let sb : List Nat := []
  let sb := writeBytes sb (strBytes "build-block-request")
  let sb := writeUint64 sb chainID.length
  let sb := writeBytes sb chainID
  let sb := writeInt64 sb height
  let sb := writeUint64 sb validatorAddr.length
  let sb := writeBytes sb validatorAddr
  let sb := writeInt64 sb maxBytes
  let sb := writeInt64 sb maxGas
  let sb := writeUint64 sb txs.length
  txs.foldl (fun sb tx => writeBytes (writeUint64 sb tx.length) tx) sb

/-- `RegisterChallengeSignableBytes` (mekabuild/types.go). -/
def RegisterChallengeSignableBytes (ch : List Nat) : List Nat :=
  let sb : List Nat := []
  let sb := writeBytes sb (strBytes "register-challenge")
  let sb := writeUint64 sb ch.length
  writeBytes sb ch

/-- The `BuildBlockRequest` struct (mekabuild/types.go): signable fields plus
the `Signature` field set by callers. -/
structure BuildBlockRequest where
  chainID : List Nat
  height : Int
  validatorAddress : List Nat
  maxBytes : Int
  maxGas : Int
  txs : List (List Nat)
  signature : List Nat
deriving DecidableEq

/-- `(*BuildBlockRequest).SignableBytes` (mekabuild/types.go), forwarding the
non-signature fields to `BuildBlockRequestSignableBytes`. -/
def BuildBlockRequest.SignableBytes (req : BuildBlockRequest) : List Nat :=
  BuildBlockRequestSignableBytes req.chainID req.height req.validatorAddress
    req.maxBytes req.maxGas req.txs

/-- The `RegisterChallenge` struct (mekabuild/types.go). -/
structure RegisterChallenge where
  bytes : List Nat
  signature : List Nat
deriving DecidableEq

/-- `(*RegisterChallenge).SignableBytes` (mekabuild/types.go). -/
def RegisterChallenge.SignableBytes (rc : RegisterChallenge) : List Nat :=
  RegisterChallengeSignableBytes rc.bytes

/-! ### The reference layout of the spec (section 4.1)

Written from the spec's words, to be compared with the encoder embedded from
the source: tag, then each variable-length field as an 8-byte little-endian
length prefix followed by raw bytes, fixed-width numerics little-endian, and
the `txs` array as an element count followed by the length-prefixed
elements. -/

/-- A variable-length field in the reference layout: 8-byte little-endian
length prefix, then the raw bytes. -/
def lenPrefixed (bs : List Nat) : List Nat :=
  le64 bs.length ++ bs

/-- The reference layout of the build-request encoding, per the spec's rules
and the claim's field order. -/
def buildBlockRequestLayout (chainID : List Nat) (height : Int)
    (validatorAddr : List Nat) (maxBytes maxGas : Int)
    (txs : List (List Nat)) : List Nat :=
  strBytes "build-block-request" ++
  lenPrefixed chainID ++
  le64 (int64Bits height) ++
  lenPrefixed validatorAddr ++
  le64 (int64Bits maxBytes) ++
  le64 (int64Bits maxGas) ++
  le64 txs.length ++
  (txs.map lenPrefixed).flatten

/-- The reference layout of the register-challenge encoding. -/
def registerChallengeLayout (ch : List Nat) : List Nat :=
  strBytes "register-challenge" ++ lenPrefixed ch

/-! ## SHA-256 (Go `crypto/sha256`, FIPS 180-4)

`HashTxs` streams each transaction into a `sha256` hash state; streaming
writes followed by `Sum` compute the digest of the concatenation of all
writes, so the embedding implements the full digest function on the
concatenated bytes.  Words are `Nat` values kept below `2 ^ 32` by explicit
reduction. -/

namespace SHA256

/-- Truncation to a 32-bit word. -/
def w32 (n : Nat) : Nat := n % 2 ^ 32

/-- 32-bit right rotation. -/
def rotr (k n : Nat) : Nat :=
  w32 ((n >>> k) ||| (n <<< (32 - k)))

/-- `Ch(x, y, z)` of FIPS 180-4. -/
def ch (x y z : Nat) : Nat := (x &&& y) ^^^ ((2 ^ 32 - 1 - x) &&& z)

/-- `Maj(x, y, z)` of FIPS 180-4. -/
def maj (x y z : Nat) : Nat := (x &&& y) ^^^ (x &&& z) ^^^ (y &&& z)

/-- `Σ₀`. -/
def bigSigma0 (x : Nat) : Nat := rotr 2 x ^^^ rotr 13 x ^^^ rotr 22 x

/-- `Σ₁`. -/
def bigSigma1 (x : Nat) : Nat := rotr 6 x ^^^ rotr 11 x ^^^ rotr 25 x

/-- `σ₀`. -/
def smallSigma0 (x : Nat) : Nat := rotr 7 x ^^^ rotr 18 x ^^^ (x >>> 3)

/-- `σ₁`. -/
def smallSigma1 (x : Nat) : Nat := rotr 17 x ^^^ rotr 19 x ^^^ (x >>> 10)

/-- The 64 round constants. -/
def K : List Nat :=
  [1116352408, 1899447441, 3049323471, 3921009573, 961987163,
   1508970993, 2453635748, 2870763221, 3624381080, 310598401,
   607225278, 1426881987, 1925078388, 2162078206, 2614888103,
   3248222580, 3835390401, 4022224774, 264347078, 604807628,
   770255983, 1249150122, 1555081692, 1996064986, 2554220882,
   2821834349, 2952996808, 3210313671, 3336571891, 3584528711,
   113926993, 338241895, 666307205, 773529912, 1294757372,
   1396182291, 1695183700, 1986661051, 2177026350, 2456956037,
   2730485921, 2820302411, 3259730800, 3345764771, 3516065817,
   3600352804, 4094571909, 275423344, 430227734, 506948616,
   659060556, 883997877, 958139571, 1322822218, 1537002063,
   1747873779, 1955562222, 2024104815, 2227730452, 2361852424,
   2428436474, 2756734187, 3204031479, 3329325298]

/-- The initial hash value `H⁽⁰⁾`. -/
def H0 : List Nat :=
  [1779033703, 3144134277, 1013904242, 2773480762,
   1359893119, 2600822924, 528734635, 1541459225]

/-- Big-endian bytes of a 64-bit value (the length field of the padding). -/
def be64 (n : Nat) : List Nat :=
  [n / 2 ^ 56 % 256, n / 2 ^ 48 % 256, n / 2 ^ 40 % 256, n / 2 ^ 32 % 256,
   n / 2 ^ 24 % 256, n / 2 ^ 16 % 256, n / 2 ^ 8 % 256, n % 256]

/-- Padding: a `0x80` byte, zeros to 56 mod 64, then the bit length
big-endian. -/
def pad (msg : List Nat) : List Nat :=
  msg ++ 0x80 :: List.replicate ((55 + 64 - msg.length % 64) % 64) 0 ++
    be64 (8 * msg.length)

/-- The 16 big-endian 32-bit words of one 64-byte block. -/
def blockWords : List Nat → List Nat
  | b0 :: b1 :: b2 :: b3 :: rest =>
      (((b0 * 256 + b1) * 256 + b2) * 256 + b3) :: blockWords rest
  | _ => []

/-- Extend 16 words to the 64-entry message schedule `W`. -/
def schedule (ws : List Nat) (t : Nat) : List Nat :=
  match t with
  | 0 => ws
  | t + 1 =>
      let ws := schedule ws t
      let n := ws.length
      ws ++ [w32 (smallSigma1 (ws.getD (n - 2) 0) + ws.getD (n - 7) 0 +
        smallSigma0 (ws.getD (n - 15) 0) + ws.getD (n - 16) 0)]

/-- One compression round. -/
def round (st : List Nat) (kt wt : Nat) : List Nat :=
  match st with
  | [a, b, c, d, e, f, g, h] =>
      let t1 := w32 (h + bigSigma1 e + ch e f g + kt + wt)
      let t2 := w32 (bigSigma0 a + maj a b c)
      [w32 (t1 + t2), a, b, c, w32 (d + t1), e, f, g]
  | st => st

/-- Compress one 64-byte block into the hash state. -/
def compress (H : List Nat) (blk : List Nat) : List Nat :=
  let W := schedule (blockWords blk) 48
  let st := (K.zip W).foldl (fun st kw => round st kw.1 kw.2) H
  (H.zip st).map fun p => w32 (p.1 + p.2)

/-- Walk the padded message, compressing each completed 64-byte block; the
padded length is a multiple of 64, so the final accumulator is empty. -/
def chunks (H : List Nat) (acc : List Nat) : List Nat → List Nat
  | [] => H
  | b :: rest =>
      if acc.length = 63 then chunks (compress H (acc ++ [b])) [] rest
      else chunks H (acc ++ [b]) rest

/-- The SHA-256 digest of a byte sequence. -/
def sha256 (msg : List Nat) : List Nat :=
  ((chunks H0 [] (pad msg)).map fun wd =>
    [wd / 2 ^ 24 % 256, wd / 2 ^ 16 % 256, wd / 2 ^ 8 % 256, wd % 256]).flatten

end SHA256

/-- `HashTxs` (mekabuild, `part_001` third document): each transaction is
written into a fresh `sha256.New()` state in order and the digest is taken;
the streamed writes hash the concatenation of the transactions. -/
def HashTxs (txs : List (List Nat)) : List Nat :=
  SHA256.sha256 (txs.foldl (fun acc tx => acc ++ tx) [])

/-- `BuildBlockRequestSignBytes` (mekabuild, `part_001` third document): like
`BuildBlockRequestSignableBytes` but with a single `txsHash` byte field in
place of the transaction list. -/
def BuildBlockRequestSignBytes (chainID : List Nat) (height : Int)
    (validatorAddr : List Nat) (maxBytes maxGas : Int)
    (txsHash : List Nat) : List Nat :=
  let sb : List Nat := []
  let sb := writeBytes sb (strBytes "build-block-request")
  let sb := writeUint64 sb chainID.length
  let sb := writeBytes sb chainID
  let sb := writeInt64 sb height
  let sb := writeUint64 sb validatorAddr.length
  let sb := writeBytes sb validatorAddr
  let sb := writeInt64 sb maxBytes
  let sb := writeInt64 sb maxGas
  let sb := writeUint64 sb txsHash.length
  writeBytes sb txsHash

/-! ## Compression framing of `(*Builder).do` (mekabuild/types.go)

The `disableCompression int32` atomic field is modelled as the stored `Nat`
(0 or 1); `do` reads it once into the local `compress`, which governs both
the body pipeline and the `content-encoding` header. -/

/-- `(*Builder).SetCompression` (mekabuild/types.go): the value stored into
the `disableCompression` field. -/
def SetCompression (enabled : Bool) : Nat :=
  if enabled then 0 else 1

/-- The `disableCompression` field of a freshly constructed `Builder`
(`NewBuilder` leaves it at the zero value). -/
def newBuilderDisableCompression : Nat := 0

/-- How one `do` call frames the request: whether the body goes through the
gzip writer, and whether the `content-encoding: gzip` header is set. -/
structure DoFraming where
  gzipBody : Bool
  contentEncodingGzip : Bool
deriving DecidableEq

/-- The framing decisions of `(*Builder).do` (mekabuild/types.go): it
computes `compress := atomic.LoadInt32(&b.disableCompression) != 0`, routes
the JSON encoding through `gzip.NewWriter` exactly when `compress`, and sets
the `content-encoding: gzip` header exactly when `compress`. -/
def doFraming (disableCompression : Nat) : DoFraming :=
  let compress := disableCompression != 0
  { gzipBody := compress, contentEncodingGzip := compress }

/-! ## Response handling of `(*Builder).do`
(mekabuild/types.go and `part_002` second document; both are identical here)

The HTTP response and the outcomes of the stdlib JSON decoder on its body are
environment data. -/

/-- An HTTP response as observed by `do`, together with the outcomes of the
two possible `encoding/json` decodes of its body: `errorFieldDecode` is the
`Error` value when the body decodes into `struct{ Error string }`, `none`
when that decode fails with error text `errorDecodeMsg`; `respDecodeOk` /
`respDecodeMsg` describe decoding the body into the response value. -/
structure HTTPResponse where
  statusCode : Nat
  body : String
  errorFieldDecode : Option String
  errorDecodeMsg : String
  respDecodeOk : Bool
  respDecodeMsg : String
deriving DecidableEq

/-- The response path of `(*Builder).do`: on a non-200 status, decode a
`{error: string}` body (falling back to the wrapped unmarshal error), and
fail with `response code %d (%s)`; on 200, decode into the response value and
fail with `unmarshal response: %w` when that decode fails. -/
def doHandleResponse (res : HTTPResponse) : Except String Unit :=
  if res.statusCode ≠ 200 then
    let errMsg :=
      match res.errorFieldDecode with
      | some e => e
      | none => "unmarshal error: " ++ res.errorDecodeMsg
    .error ("response code " ++ toString res.statusCode ++ " (" ++ errMsg ++ ")")
  else if !res.respDecodeOk then
    .error ("unmarshal response: " ++ res.respDecodeMsg)
  else
    .ok ()

/-! ## The base URL aliasing of `(*Builder).do`

`Builder.baseurl` is a `*url.URL`; `do` executes `u := b.baseurl` (copying
the pointer) and `u.Path = path` (mutating the shared object).  Pointers are
modelled as addresses into an explicit heap of `url.URL` values. -/

/-- The fields of `url.URL` that this client touches. -/
structure URL where
  Scheme : String
  Host : String
  Path : String
deriving DecidableEq

/-- `(*url.URL).String` for the scheme/host/path shape used here. -/
def urlString (u : URL) : String :=
  u.Scheme ++ "://" ++ u.Host ++ u.Path

/-- The pointer field `baseurl` of a `Builder`, as stored by `NewBuilder`:
the address of the caller's `url.URL`. -/
structure BuilderRef where
  baseurlRef : Nat

/-- `NewBuilder` stores the provided `apiURL` pointer unchanged. -/
def NewBuilderRef (apiURL : Nat) : BuilderRef :=
  ⟨apiURL⟩

/-- The URL handling at the top of `do` (mekabuild/types.go, `part_002`,
pbs.go alike): `u := b.baseurl; u.Path = path; uri := u.String()`.  Returns
the heap after the write through the shared pointer, and the request URI. -/
def doURL (heap : Nat → URL) (b : BuilderRef) (path : String) :
    (Nat → URL) × String :=
  let heap' := fun a =>
    if a = b.baseurlRef then { heap b.baseurlRef with Path := path }
    else heap a
  (heap', urlString (heap' b.baseurlRef))

/-- The endpoint path of build requests (`BuildBlock`). -/
def buildEndpoint : String := "/v0/build"

/-- The endpoint path of apply and register requests (`Register`). -/
def registerEndpoint : String := "/v0/register"

/-! ## The registration state machine
(`(*Builder).Register` and `(*Builder).BuildBlock`, `part_002` second
document)

`Register` runs under `b.mu`, so its body executes without interference; the
sequential model passes the builder state explicitly.  Outgoing calls (the
two `do` exchanges, the signer invocations, the build `do`) are recorded in
an event trace; their outcomes come from an environment indexed by how many
calls of that kind happened before, so a retry observes a fresh response. -/

/-- `internal.ApplyRequest` (`part_003` first document). -/
structure ApplyRequest where
  chainID : String
  validatorAddress : String
  paymentAddress : String
deriving DecidableEq

/-- `internal.ApplyResponse`. -/
structure ApplyResponse where
  challengeID : String
  challenge : List Nat
deriving DecidableEq

/-- `internal.RegisterRequest`. -/
structure RegisterRequest where
  challengeID : String
  signature : List Nat
deriving DecidableEq

/-- One outgoing call of the builder client. -/
inductive Event
  | applySent (req : ApplyRequest)
  | signChallengeInvoked (challenge : List Nat)
  | registerSent (req : RegisterRequest)
  | signBuildInvoked
  | buildSent
deriving DecidableEq

/-- The mutable builder state: the constructor parameters, the
`registered` flag, and the instrumentation trace of outgoing calls. -/
structure BuilderState where
  chainID : String
  validatorAddr : String
  paymentAddr : String
  registered : Bool
  trace : List Event
deriving DecidableEq

/-- `NewBuilder` (`part_002`): the flag starts false and nothing has been
sent. -/
def NewBuilderState (chainID validatorAddr paymentAddr : String) :
    BuilderState :=
  ⟨chainID, validatorAddr, paymentAddr, false, []⟩

/-- Number of apply exchanges in a trace. -/
def countApply (tr : List Event) : Nat :=
  tr.countP fun e => match e with | .applySent _ => true | _ => false

/-- Number of register-challenge signer invocations in a trace. -/
def countSignChallenge (tr : List Event) : Nat :=
  tr.countP fun e => match e with | .signChallengeInvoked _ => true | _ => false

/-- Number of register exchanges in a trace. -/
def countRegister (tr : List Event) : Nat :=
  tr.countP fun e => match e with | .registerSent _ => true | _ => false

/-- Number of build-request signer invocations in a trace. -/
def countSignBuild (tr : List Event) : Nat :=
  tr.countP fun e => match e with | .signBuildInvoked => true | _ => false

/-- Number of build exchanges in a trace. -/
def countBuild (tr : List Event) : Nat :=
  tr.countP fun e => match e with | .buildSent => true | _ => false

/-- Outcomes of the external calls made by `Register`, indexed by how many
calls of the same kind preceded: the apply `do` exchange, the signer on a
challenge, and the register `do` exchange. -/
structure RegisterEnv where
  applyResult : Nat → Except String ApplyResponse
  signChallengeResult : Nat → List Nat → Except String (List Nat)
  registerResult : Nat → RegisterRequest → Except String Unit

/-- The error of a failed `Register` call, wrapping the cause exactly as the
three `fmt.Errorf("...: %w", err)` sites do. -/
inductive RegisterError
  | application (cause : String)
  | signChallenge (cause : String)
  | registration (cause : String)
deriving DecidableEq

/-- `(*Builder).Register` (`part_002` second document, lines 243-299), with
the lock elided (the whole body runs under `b.mu`): fast path on
`registered`; otherwise apply, sign the returned challenge, register with the
returned challenge id and the signature, and only then set `registered`. -/
def RegisterGo (env : RegisterEnv) (b : BuilderState) :
    Except RegisterError Unit × BuilderState :=
  if b.registered then (.ok (), b)
  else
    let applyReq : ApplyRequest := ⟨b.chainID, b.validatorAddr, b.paymentAddr⟩
    let b1 := { b with trace := b.trace ++ [.applySent applyReq] }
    match env.applyResult (countApply b.trace) with
    | .error c => (.error (.application c), b1)
    | .ok resp =>
      let b2 := { b1 with trace := b1.trace ++ [.signChallengeInvoked resp.challenge] }
      match env.signChallengeResult (countSignChallenge b.trace) resp.challenge with
      | .error c => (.error (.signChallenge c), b2)
      | .ok sig =>
        let regReq : RegisterRequest := ⟨resp.challengeID, sig⟩
        let b3 := { b2 with trace := b2.trace ++ [.registerSent regReq] }
        match env.registerResult (countRegister b.trace) regReq with
        | .error c => (.error (.registration c), b3)
        | .ok _ => (.ok (), { b3 with registered := true })

/-- Outcomes of the external calls made by `BuildBlock` beyond registration:
the signer on the build request and the build `do` exchange. -/
structure BuildEnv where
  regEnv : RegisterEnv
  signBuildResult : Nat → Except String Unit
  buildResult : Nat → Except String Unit

/-- The error of a failed `BuildBlock` call: a wrapped registration error
(`register validator: %w`), a wrapped signing error (`sign request: %w`), or
the transport error returned unwrapped from `do`. -/
inductive BuildError
  | register (e : RegisterError)
  | sign (cause : String)
  | transport (cause : String)
deriving DecidableEq

/-- `(*Builder).BuildBlock` (`part_002` second document, lines 302-317):
`Register` first, then sign the request, then the build exchange. -/
def BuildBlockGo (env : BuildEnv) (b : BuilderState) :
    Except BuildError Unit × BuilderState :=
  match RegisterGo env.regEnv b with
  | (.error e, b') => (.error (.register e), b')
  | (.ok _, b') =>
    let b1 := { b' with trace := b'.trace ++ [.signBuildInvoked] }
    match env.signBuildResult (countSignBuild b'.trace) with
    | .error c => (.error (.sign c), b1)
    | .ok _ =>
      let b2 := { b1 with trace := b1.trace ++ [.buildSent] }
      match env.buildResult (countBuild b1.trace) with
      | .error c => (.error (.transport c), b2)
      | .ok _ => (.ok (), b2)

/-- A sequence of `BuildBlock` calls on one builder, each with its own
environment. -/
def runBuilds (envs : List BuildEnv) (b : BuilderState) : BuilderState :=
  envs.foldl (fun s e => (BuildBlockGo e s).2) b

/-- Outcomes of the external calls made by the `BuildBlock` of the Builder
revision in mekabuild/types.go (lines 181-192): the signer on the request
and the build `do` exchange.  That revision has no `Register` method, no
`mu` and no `registered` field. -/
structure SignSendEnv where
  signResult : Nat → Except String Unit
  buildResult : Nat → Except String Unit

/-- `(*Builder).BuildBlock` (mekabuild/types.go, lines 181-192): sign the
request immediately — wrapping a signer failure as `sign request: %w` — then
send it to the build endpoint, returning the `do` error unwrapped.  No
registration step exists in this revision; the only mutable observation is
the trace of outgoing calls. -/
def BuildBlockGoTypes (env : SignSendEnv) (tr : List Event) :
    Except String Unit × List Event :=
  let tr1 := tr ++ [Event.signBuildInvoked]
  match env.signResult (countSignBuild tr) with
  | .error c => (.error ("sign request: " ++ c), tr1)
  | .ok _ =>
    let tr2 := tr1 ++ [Event.buildSent]
    match env.buildResult (countBuild tr1) with
    | .error c => (.error c, tr2)
    | .ok _ => (.ok (), tr2)

/-! ## The concurrent model of `Register` / `BuildBlock`

`Register` runs its whole body while holding `b.mu`; `BuildBlock` calls
`Register` (acquire/release inside) and then signs and sends the build
request without any lock.  Each caller becomes a thread whose program counter
walks these phases; the mutex is an `owner : Option Nat`, acquired only by
the step out of `start` and only when free.  A schedule is an arbitrary list
of thread indices; picking a blocked, finished or out-of-range thread leaves
the state unchanged, so every interleaving is a schedule. -/
namespace Concurrent

/-- What a thread runs: a bare `Register` call, or a full `BuildBlock` call
(which performs the registration sequence first). -/
inductive TKind
  | registerOnly
  | buildBlock
deriving DecidableEq

/-- The program counter of one caller thread.  `checking` through
`registering` are the phases executed while holding `b.mu`; `signingBuild`
and `building` are the lock-free tail of `BuildBlock`. -/
inductive Phase
  | start
  | checking
  | signing (resp : ApplyResponse)
  | registering (challengeID : String) (sig : List Nat)
  | signingBuild
  | building
  | done (success : Bool)
  | applying
deriving DecidableEq

/-- The phases executed while holding the mutex: exactly the registration
sequence of `Register`. -/
def Phase.inRegSeq : Phase → Bool
  | .checking | .applying | .signing _ | .registering _ _ => true
  | _ => false

/-- Phases whose thread has performed its apply exchange but not yet its
register exchange. -/
def Phase.postApply : Phase → Bool
  | .signing _ | .registering _ _ => true
  | _ => false

/-- Phases past the registration sequence. -/
def Phase.postReg : Phase → Bool
  | .signingBuild | .building | .done _ => true
  | _ => false

/-- The shared state: the mutex owner, the `registered` flag, the global
trace of outgoing calls, the constructor parameters, and each thread's
program counter. -/
structure Sys where
  owner : Option Nat
  registered : Bool
  trace : List Event
  chainID : String
  validatorAddr : String
  paymentAddr : String
  threads : List (TKind × Phase)
deriving DecidableEq

/-- Environment for the concurrent model: the registration call outcomes
plus the signer and transport outcomes of the build tail. -/
structure ConcEnv where
  reg : RegisterEnv
  signBuildResult : Nat → Except String Unit
  buildResult : Nat → Except String Unit

/-- Where a thread goes once registration is established: `Register` returns
(`done`), `BuildBlock` proceeds to sign and send the build request. -/
def afterRegistered : TKind → Phase
  | .registerOnly => .done true
  | .buildBlock => .signingBuild

/-- One atomic step of thread `i`.  `none` when the thread cannot move: out
of range, finished, or blocked on the mutex in `start`.  The step out of
`start` acquires the mutex; the steps out of `checking` (fast path),
`applying`/`signing`/`registering` (failure), and `registering` (success)
release it exactly as the corresponding returns of `Register` do. -/
def stepThread (env : ConcEnv) (s : Sys) (i : Nat) : Option Sys :=
  match s.threads[i]? with
  | none => none
  | some (k, ph) =>
    match ph with
    | .start =>
        match s.owner with
        | some _ => none
        | none =>
            some { s with owner := some i,
                          threads := s.threads.set i (k, Phase.checking) }
    | .checking =>
        if s.registered then
          some { s with owner := none,
                        threads := s.threads.set i (k, afterRegistered k) }
        else
          some { s with threads := s.threads.set i (k, Phase.applying) }
    | .applying =>
        let applyReq : ApplyRequest := ⟨s.chainID, s.validatorAddr, s.paymentAddr⟩
        let s1 := { s with trace := s.trace ++ [Event.applySent applyReq] }
        match env.reg.applyResult (countApply s.trace) with
        | .error _ =>
            some { s1 with owner := none,
                           threads := s1.threads.set i (k, Phase.done false) }
        | .ok resp =>
            some { s1 with threads := s1.threads.set i (k, Phase.signing resp) }
    | .signing resp =>
        let s1 := { s with trace := s.trace ++ [Event.signChallengeInvoked resp.challenge] }
        match env.reg.signChallengeResult (countSignChallenge s.trace) resp.challenge with
        | .error _ =>
            some { s1 with owner := none,
                           threads := s1.threads.set i (k, Phase.done false) }
        | .ok sig =>
            some { s1 with threads :=
                     s1.threads.set i (k, Phase.registering resp.challengeID sig) }
    | .registering cid sig =>
        let req : RegisterRequest := ⟨cid, sig⟩
        let s1 := { s with trace := s.trace ++ [Event.registerSent req] }
        match env.reg.registerResult (countRegister s.trace) req with
        | .error _ =>
            some { s1 with owner := none,
                           threads := s1.threads.set i (k, Phase.done false) }
        | .ok _ =>
            some { s1 with owner := none, registered := true,
                           threads := s1.threads.set i (k, afterRegistered k) }
    | .signingBuild =>
        let s1 := { s with trace := s.trace ++ [Event.signBuildInvoked] }
        match env.signBuildResult (countSignBuild s.trace) with
        | .error _ => some { s1 with threads := s1.threads.set i (k, Phase.done false) }
        | .ok _ => some { s1 with threads := s1.threads.set i (k, Phase.building) }
    | .building =>
        let s1 := { s with trace := s.trace ++ [Event.buildSent] }
        match env.buildResult (countBuild s.trace) with
        | .error _ => some { s1 with threads := s1.threads.set i (k, Phase.done false) }
        | .ok _ => some { s1 with threads := s1.threads.set i (k, Phase.done true) }
    | .done _ => none

/-- Run a schedule: each entry picks the thread to step next; a pick that
cannot move is a no-op. -/
def run (env : ConcEnv) (sched : List Nat) (s : Sys) : Sys :=
  sched.foldl (fun s i => match stepThread env s i with | some t => t | none => s) s

/-- `N` fresh concurrent callers on one freshly constructed builder. -/
def initSys (chainID validatorAddr paymentAddr : String)
    (kinds : List TKind) : Sys :=
  ⟨none, false, [], chainID, validatorAddr, paymentAddr,
   kinds.map fun k => (k, .start)⟩

/-- An environment whose registration, signing, and transport calls all
succeed. -/
def SuccessEnv (env : ConcEnv) : Prop :=
  (∀ n, ∃ resp, env.reg.applyResult n = .ok resp) ∧
  (∀ n ch, ∃ sig, env.reg.signChallengeResult n ch = .ok sig) ∧
  (∀ n req, env.reg.registerResult n req = .ok ()) ∧
  (∀ n, env.signBuildResult n = .ok ()) ∧
  (∀ n, env.buildResult n = .ok ())

/-- The number of apply exchanges attributable to a thread currently inside
the apply-to-register window (at most the lock owner). -/
def midApplyCount (s : Sys) : Nat :=
  match s.owner with
  | some i => if (s.threads[i]?).any (fun t => t.2.postApply) then 1 else 0
  | none => 0

/-- The inductive invariant of the concurrent system: the mutex owner is the
unique thread inside the registration sequence; before registration there
has been no register exchange and exactly as many apply exchanges as threads
past their apply; after registration exactly one of each, with no thread
still inside the apply-to-register window; and (under a success environment)
every finished thread succeeded, and no thread is past registration while
`registered` is still false. -/
structure Inv (s : Sys) : Prop where
  ownerMid : ∀ i : Nat, s.owner = some i →
    ∃ (k : TKind) (ph : Phase), s.threads[i]? = some (k, ph) ∧
      ph.inRegSeq = true
  midOwner : ∀ (j : Nat) (k : TKind) (ph : Phase),
    s.threads[j]? = some (k, ph) → ph.inRegSeq = true → s.owner = some j
  regFalse : s.registered = false →
    countRegister s.trace = 0 ∧
    countApply s.trace = midApplyCount s ∧
    (∀ (j : Nat) (k : TKind) (ph : Phase), s.threads[j]? = some (k, ph) →
      ph.postReg = false)
  regTrue : s.registered = true →
    countApply s.trace = 1 ∧ countRegister s.trace = 1 ∧
    (∀ (j : Nat) (k : TKind) (ph : Phase), s.threads[j]? = some (k, ph) →
      ph = .applying ∨ ph.postApply = true → False)
  doneTrue : ∀ (j : Nat) (k : TKind) (b : Bool),
    s.threads[j]? = some (k, .done b) → b = true

end Concurrent

/-! ## Concrete environments used to instantiate the theorems -/

/-- An environment in which every registration call succeeds. -/
def envOk : RegisterEnv :=
  ⟨fun _ => .ok ⟨"challenge-id-0", [1, 2]⟩, fun _ ch => .ok (0 :: ch),
   fun _ _ => .ok ()⟩

/-- A build environment in which every call succeeds. -/
def benvOk : BuildEnv :=
  ⟨envOk, fun _ => .ok (), fun _ => .ok ()⟩

/-- An environment whose first register exchange fails (for instance because
the signature did not verify) and whose second attempt succeeds; the two
apply exchanges hand out distinct challenge ids. -/
def envRetry : RegisterEnv :=
  ⟨fun n => .ok ⟨if n = 0 then "challenge-0" else "challenge-1", [7, 7]⟩,
   fun _ ch => .ok (0 :: ch),
   fun n _ => if n = 0 then .error "bad signature" else .ok ()⟩

/-- An environment whose apply exchange always fails. -/
def envApplyFail : RegisterEnv :=
  ⟨fun _ => .error "connection refused", fun _ ch => .ok ch, fun _ _ => .ok ()⟩

/-- A build environment whose registration fails at the apply exchange. -/
def benvApplyFail : BuildEnv :=
  ⟨envApplyFail, fun _ => .ok (), fun _ => .ok ()⟩

/-- A build environment in which registration succeeds but the signer fails
on the build request. -/
def benvSignFail : BuildEnv :=
  ⟨envOk, fun _ => .error "no key", fun _ => .ok ()⟩

/-- A concurrent-model environment in which every call succeeds. -/
def Concurrent.concEnvOk : Concurrent.ConcEnv :=
  ⟨envOk, fun _ => .ok (), fun _ => .ok ()⟩

/-- A fresh builder with the constructor parameters of the repository's
registration test. -/
def b0W : BuilderState :=
  NewBuilderState "my-chain-id" "foo" "my-payment-addr"

/-- The builder state after one failed `Register` attempt against
`envRetry`. -/
def b1W : BuilderState :=
  (RegisterGo envRetry b0W).2

/-! ## Lemmas about the byte encoders -/

theorem strBytes_build_tag :
    strBytes "build-block-request" =
      [98, 117, 105, 108, 100, 45, 98, 108, 111, 99, 107, 45,
       114, 101, 113, 117, 101, 115, 116] := by
  decide

theorem strBytes_register_tag :
    strBytes "register-challenge" =
      [114, 101, 103, 105, 115, 116, 101, 114, 45, 99, 104, 97,
       108, 108, 101, 110, 103, 101] := by
  decide

theorem le64_length (n : Nat) : (le64 n).length = 8 := rfl

theorem le64_inj {m n : Nat} (hm : m < 2 ^ 64) (hn : n < 2 ^ 64)
    (h : le64 m = le64 n) : m = n := by
  simp only [le64, List.cons.injEq, and_true] at h
  omega

theorem int64Bits_lt (i : Int) : int64Bits i < 2 ^ 64 := by
  unfold int64Bits
  omega

theorem int64Bits_inj {i j : Int} (hil : -2 ^ 63 ≤ i) (hiu : i < 2 ^ 63)
    (hjl : -2 ^ 63 ≤ j) (hju : j < 2 ^ 63)
    (h : int64Bits i = int64Bits j) : i = j := by
  unfold int64Bits at h
  omega

theorem foldl_lenPrefixed (txs : List (List Nat)) (init : List Nat) :
    txs.foldl (fun sb tx => writeBytes (writeUint64 sb tx.length) tx) init =
      init ++ (txs.map lenPrefixed).flatten := by
  induction txs generalizing init with
  | nil => simp
  | cons t ts ih =>
      rw [List.foldl_cons, ih]
      simp [writeBytes, writeUint64, lenPrefixed, List.append_assoc]

theorem signableBytes_eq_layout (chainID : List Nat) (height : Int)
    (validatorAddr : List Nat) (maxBytes maxGas : Int)
    (txs : List (List Nat)) :
    BuildBlockRequestSignableBytes chainID height validatorAddr maxBytes
        maxGas txs =
      buildBlockRequestLayout chainID height validatorAddr maxBytes maxGas
        txs := by
  unfold BuildBlockRequestSignableBytes buildBlockRequestLayout
  rw [foldl_lenPrefixed]
  simp [writeBytes, writeUint64, writeInt64, lenPrefixed]

theorem registerChallenge_eq_layout (ch : List Nat) :
    RegisterChallengeSignableBytes ch = registerChallengeLayout ch := by
  unfold RegisterChallengeSignableBytes registerChallengeLayout
  simp [writeBytes, writeUint64, lenPrefixed]

theorem le64_append_inj {m n : Nat} {r s : List Nat} (hm : m < 2 ^ 64)
    (hn : n < 2 ^ 64) (h : le64 m ++ r = le64 n ++ s) : m = n ∧ r = s := by
  have h2 := List.append_inj h (by rw [le64_length, le64_length])
  exact ⟨le64_inj hm hn h2.1, h2.2⟩

theorem lenPrefixed_append_inj {a b r s : List Nat}
    (ha : a.length < 2 ^ 64) (hb : b.length < 2 ^ 64)
    (h : lenPrefixed a ++ r = lenPrefixed b ++ s) : a = b ∧ r = s := by
  unfold lenPrefixed at h
  rw [List.append_assoc, List.append_assoc] at h
  obtain ⟨hlen, hrest⟩ := le64_append_inj ha hb h
  exact List.append_inj hrest hlen

theorem txsFlatten_inj : ∀ {txs txs' : List (List Nat)},
    txs.length = txs'.length →
    (∀ tx ∈ txs, tx.length < 2 ^ 64) → (∀ tx ∈ txs', tx.length < 2 ^ 64) →
    (txs.map lenPrefixed).flatten = (txs'.map lenPrefixed).flatten →
    txs = txs'
  | [], [], _, _, _, _ => rfl
  | [], t' :: ts', hlen, _, _, _ => by simp at hlen
  | t :: ts, [], hlen, _, _, _ => by simp at hlen
  | t :: ts, t' :: ts', hlen, hb, hb', h => by
      simp only [List.map_cons, List.flatten_cons] at h
      obtain ⟨ht, hrest⟩ :=
        lenPrefixed_append_inj (hb t (by simp)) (hb' t' (by simp)) h
      have := txsFlatten_inj (by simpa using hlen)
        (fun tx htx => hb tx (by simp [htx]))
        (fun tx htx => hb' tx (by simp [htx])) hrest
      rw [ht, this]

/-! ## Claim theorems -/

/-- Claim C1: `BuildBlockRequestSignableBytes` realises the reference layout
(tag, length-prefixed chain id, little-endian int64 height, length-prefixed
validator address, little-endian int64 max bytes and max gas, the tx count,
then each tx length-prefixed); an empty `txs` ends right after the zero
count; `RegisterChallengeSignableBytes` realises its tag-plus-length-prefix
layout; and neither encoding reads the `Signature` field. -/
theorem C1_canonical_encoding_layout :
    (∀ chainID height validatorAddr maxBytes maxGas txs,
      BuildBlockRequestSignableBytes chainID height validatorAddr maxBytes
          maxGas txs =
        buildBlockRequestLayout chainID height validatorAddr maxBytes maxGas
          txs) ∧
    (∀ chainID height validatorAddr maxBytes maxGas,
      BuildBlockRequestSignableBytes chainID height validatorAddr maxBytes
          maxGas [] =
        strBytes "build-block-request" ++ lenPrefixed chainID ++
          le64 (int64Bits height) ++ lenPrefixed validatorAddr ++
          le64 (int64Bits maxBytes) ++ le64 (int64Bits maxGas) ++ le64 0) ∧
    (∀ ch, RegisterChallengeSignableBytes ch = registerChallengeLayout ch) ∧
    (∀ req sig,
      BuildBlockRequest.SignableBytes { req with signature := sig } =
        BuildBlockRequest.SignableBytes req) ∧
    (∀ rc sig,
      RegisterChallenge.SignableBytes { rc with signature := sig } =
        RegisterChallenge.SignableBytes rc) := by
  refine ⟨signableBytes_eq_layout, ?_, registerChallenge_eq_layout,
    fun req sig => rfl, fun rc sig => rfl⟩
  intro chainID height validatorAddr maxBytes maxGas
  rw [signableBytes_eq_layout]
  unfold buildBlockRequestLayout
  simp

/-- Full injectivity of the length-prefixed build-request encoder on the
value ranges Go guarantees (lengths and counts fit in a `uint64`, numeric
fields are `int64`). -/
theorem buildSignableBytes_inj {cid : List Nat} {ht : Int} {vad : List Nat}
    {mb mg : Int} {txs : List (List Nat)} {cid' : List Nat} {ht' : Int}
    {vad' : List Nat} {mb' mg' : Int} {txs' : List (List Nat)}
    (hc : cid.length < 2 ^ 64) (hc' : cid'.length < 2 ^ 64)
    (hv : vad.length < 2 ^ 64) (hv' : vad'.length < 2 ^ 64)
    (hn : txs.length < 2 ^ 64) (hn' : txs'.length < 2 ^ 64)
    (htx : ∀ tx ∈ txs, tx.length < 2 ^ 64)
    (htx' : ∀ tx ∈ txs', tx.length < 2 ^ 64)
    (hh1 : -2 ^ 63 ≤ ht) (hh2 : ht < 2 ^ 63)
    (hh1' : -2 ^ 63 ≤ ht') (hh2' : ht' < 2 ^ 63)
    (hb1 : -2 ^ 63 ≤ mb) (hb2 : mb < 2 ^ 63)
    (hb1' : -2 ^ 63 ≤ mb') (hb2' : mb' < 2 ^ 63)
    (hg1 : -2 ^ 63 ≤ mg) (hg2 : mg < 2 ^ 63)
    (hg1' : -2 ^ 63 ≤ mg') (hg2' : mg' < 2 ^ 63)
    (heq : BuildBlockRequestSignableBytes cid ht vad mb mg txs =
      BuildBlockRequestSignableBytes cid' ht' vad' mb' mg' txs') :
    cid = cid' ∧ ht = ht' ∧ vad = vad' ∧ mb = mb' ∧ mg = mg' ∧
      txs = txs' := by
  rw [signableBytes_eq_layout, signableBytes_eq_layout] at heq
  simp only [buildBlockRequestLayout, lenPrefixed, List.append_assoc] at heq
  replace heq := List.append_cancel_left heq
  obtain ⟨hclen, heq⟩ := le64_append_inj hc hc' heq
  obtain ⟨hcid, heq⟩ := List.append_inj heq hclen
  obtain ⟨hhbits, heq⟩ :=
    le64_append_inj (int64Bits_lt ht) (int64Bits_lt ht') heq
  obtain ⟨hvlen, heq⟩ := le64_append_inj hv hv' heq
  obtain ⟨hvad, heq⟩ := List.append_inj heq hvlen
  obtain ⟨hmbbits, heq⟩ :=
    le64_append_inj (int64Bits_lt mb) (int64Bits_lt mb') heq
  obtain ⟨hmgbits, heq⟩ :=
    le64_append_inj (int64Bits_lt mg) (int64Bits_lt mg') heq
  obtain ⟨htlen, hflat⟩ := le64_append_inj hn hn' heq
  exact ⟨hcid, int64Bits_inj hh1 hh2 hh1' hh2' hhbits, hvad,
    int64Bits_inj hb1 hb2 hb1' hb2' hmbbits,
    int64Bits_inj hg1 hg2 hg1' hg2' hmgbits,
    txsFlatten_inj htlen htx htx' hflat⟩

/-- Claim C2 counterexample: the hash-based variant
`BuildBlockRequestSignBytes` with `HashTxs` is not injective under splitting
a transaction — `txs = ["tx1", "tx2"]` and `txs = ["tx1tx2"]` differ but
produce identical sign bytes, because `HashTxs` hashes the plain
concatenation of the transactions. -/
theorem C2_signbytes_split_collision :
    BuildBlockRequestSignBytes (strBytes "chain-1") 10 (strBytes "ADDR1")
        100000 100000 (HashTxs [strBytes "tx1", strBytes "tx2"]) =
      BuildBlockRequestSignBytes (strBytes "chain-1") 10 (strBytes "ADDR1")
        100000 100000 (HashTxs [strBytes "tx1tx2"]) ∧
    [strBytes "tx1", strBytes "tx2"] ≠ [strBytes "tx1tx2"] := by
  constructor
  · have hj : (([] : List Nat) ++ strBytes "tx1") ++ strBytes "tx2" =
        ([] : List Nat) ++ strBytes "tx1tx2" := by decide
    unfold HashTxs
    simp only [List.foldl_cons, List.foldl_nil]
    rw [hj]
  · decide

/-- Claim C2 (amended): the length-prefixed encoder
`BuildBlockRequestSignableBytes` is injective — any change of a field value,
any reordering of `txs`, and any splitting of one tx into two changes the
encoded bytes; the hash-based variant `BuildBlockRequestSignBytes` over
`HashTxs`, however, identifies all `txs` lists with the same concatenation
(splitting one tx into two does not change its output). -/
theorem C2_injectivity_amended :
    (∀ (cid : List Nat) (ht : Int) (vad : List Nat) (mb mg : Int)
        (txs : List (List Nat)) (cid' : List Nat) (ht' : Int)
        (vad' : List Nat) (mb' mg' : Int) (txs' : List (List Nat)),
      cid.length < 2 ^ 64 → cid'.length < 2 ^ 64 →
      vad.length < 2 ^ 64 → vad'.length < 2 ^ 64 →
      txs.length < 2 ^ 64 → txs'.length < 2 ^ 64 →
      (∀ tx ∈ txs, tx.length < 2 ^ 64) →
      (∀ tx ∈ txs', tx.length < 2 ^ 64) →
      -2 ^ 63 ≤ ht → ht < 2 ^ 63 → -2 ^ 63 ≤ ht' → ht' < 2 ^ 63 →
      -2 ^ 63 ≤ mb → mb < 2 ^ 63 → -2 ^ 63 ≤ mb' → mb' < 2 ^ 63 →
      -2 ^ 63 ≤ mg → mg < 2 ^ 63 → -2 ^ 63 ≤ mg' → mg' < 2 ^ 63 →
      BuildBlockRequestSignableBytes cid ht vad mb mg txs =
        BuildBlockRequestSignableBytes cid' ht' vad' mb' mg' txs' →
      cid = cid' ∧ ht = ht' ∧ vad = vad' ∧ mb = mb' ∧ mg = mg' ∧
        txs = txs') ∧
    (∀ (cid : List Nat) (ht : Int) (vad : List Nat) (mb mg : Int)
        (txs txs' : List (List Nat)),
      txs.foldl (fun acc tx => acc ++ tx) [] =
        txs'.foldl (fun acc tx => acc ++ tx) [] →
      BuildBlockRequestSignBytes cid ht vad mb mg (HashTxs txs) =
        BuildBlockRequestSignBytes cid ht vad mb mg (HashTxs txs')) := by
  constructor
  · intro cid ht vad mb mg txs cid' ht' vad' mb' mg' txs'
      hc hc' hv hv' hn hn' htx htx' hh1 hh2 hh1' hh2' hb1 hb2 hb1' hb2'
      hg1 hg2 hg1' hg2' heq
    exact buildSignableBytes_inj hc hc' hv hv' hn hn' htx htx' hh1 hh2
      hh1' hh2' hb1 hb2 hb1' hb2' hg1 hg2 hg1' hg2' heq
  · intro cid ht vad mb mg txs txs' hj
    unfold HashTxs
    rw [hj]

/-- Claim C2 witness: the amended injectivity applied at the concrete test
scenario of the repository's test suite. -/
theorem C2_injectivity_amended_witness :
    strBytes "chain-1" = strBytes "chain-1" ∧ (10 : Int) = 10 ∧
    strBytes "ADDR1" = strBytes "ADDR1" ∧ (100000 : Int) = 100000 ∧
    (100000 : Int) = 100000 ∧
    ([strBytes "tx1", strBytes "tx2"] : List (List Nat)) =
      [strBytes "tx1", strBytes "tx2"] :=
  C2_injectivity_amended.1 _ _ _ _ _ _ _ _ _ _ _ _
    (by decide) (by decide) (by decide) (by decide) (by decide) (by decide)
    (by decide) (by decide) (by decide) (by decide) (by decide) (by decide)
    (by decide) (by decide) (by decide) (by decide) (by decide) (by decide)
    (by decide) (by decide) rfl

/-- Claim C3: domain separation — no build-request encoding ever equals a
register-challenge encoding (their fixed ASCII tags differ in the very first
byte). -/
theorem C3_domain_separation (chainID : List Nat) (height : Int)
    (validatorAddr : List Nat) (maxBytes maxGas : Int)
    (txs : List (List Nat)) (ch : List Nat) :
    BuildBlockRequestSignableBytes chainID height validatorAddr maxBytes
        maxGas txs ≠ RegisterChallengeSignableBytes ch := by
  rw [signableBytes_eq_layout, registerChallenge_eq_layout]
  unfold buildBlockRequestLayout registerChallengeLayout
  rw [strBytes_build_tag, strBytes_register_tag]
  intro h
  simp only [List.cons_append, List.cons.injEq] at h
  exact absurd h.1 (by decide)

/-! ## Characterisation lemmas for `RegisterGo` and `BuildBlockGo` -/

theorem registerGo_fast (env : RegisterEnv) (b : BuilderState)
    (h : b.registered = true) : RegisterGo env b = (.ok (), b) := by
  simp [RegisterGo, h]

theorem registerGo_apply_err (env : RegisterEnv) (b : BuilderState)
    (c : String) (hb : b.registered = false)
    (ha : env.applyResult (countApply b.trace) = .error c) :
    RegisterGo env b = (.error (.application c),
      { b with trace := b.trace ++
          [Event.applySent ⟨b.chainID, b.validatorAddr, b.paymentAddr⟩] }) := by
  simp [RegisterGo, hb, ha]

theorem registerGo_sign_err (env : RegisterEnv) (b : BuilderState)
    (resp : ApplyResponse) (c : String) (hb : b.registered = false)
    (ha : env.applyResult (countApply b.trace) = .ok resp)
    (hs : env.signChallengeResult (countSignChallenge b.trace)
      resp.challenge = .error c) :
    RegisterGo env b = (.error (.signChallenge c),
      { b with trace := b.trace ++
          [Event.applySent ⟨b.chainID, b.validatorAddr, b.paymentAddr⟩,
           Event.signChallengeInvoked resp.challenge] }) := by
  simp [RegisterGo, hb, ha, hs]

theorem registerGo_register_err (env : RegisterEnv) (b : BuilderState)
    (resp : ApplyResponse) (sig : List Nat) (c : String)
    (hb : b.registered = false)
    (ha : env.applyResult (countApply b.trace) = .ok resp)
    (hs : env.signChallengeResult (countSignChallenge b.trace)
      resp.challenge = .ok sig)
    (hr : env.registerResult (countRegister b.trace)
      ⟨resp.challengeID, sig⟩ = .error c) :
    RegisterGo env b = (.error (.registration c),
      { b with trace := b.trace ++
          [Event.applySent ⟨b.chainID, b.validatorAddr, b.paymentAddr⟩,
           Event.signChallengeInvoked resp.challenge,
           Event.registerSent ⟨resp.challengeID, sig⟩] }) := by
  simp [RegisterGo, hb, ha, hs, hr]

theorem registerGo_ok (env : RegisterEnv) (b : BuilderState)
    (resp : ApplyResponse) (sig : List Nat) (hb : b.registered = false)
    (ha : env.applyResult (countApply b.trace) = .ok resp)
    (hs : env.signChallengeResult (countSignChallenge b.trace)
      resp.challenge = .ok sig)
    (hr : env.registerResult (countRegister b.trace)
      ⟨resp.challengeID, sig⟩ = .ok ()) :
    RegisterGo env b = (.ok (),
      { b with registered := true,
               trace := b.trace ++
          [Event.applySent ⟨b.chainID, b.validatorAddr, b.paymentAddr⟩,
           Event.signChallengeInvoked resp.challenge,
           Event.registerSent ⟨resp.challengeID, sig⟩] }) := by
  simp [RegisterGo, hb, ha, hs, hr]

theorem registerGo_const (env : RegisterEnv) (b : BuilderState) :
    (RegisterGo env b).2.chainID = b.chainID ∧
    (RegisterGo env b).2.validatorAddr = b.validatorAddr ∧
    (RegisterGo env b).2.paymentAddr = b.paymentAddr := by
  cases hb : b.registered with
  | true => simp [registerGo_fast env b hb]
  | false =>
    cases ha : env.applyResult (countApply b.trace) with
    | error c => simp [registerGo_apply_err env b c hb ha]
    | ok resp =>
      cases hs : env.signChallengeResult (countSignChallenge b.trace)
          resp.challenge with
      | error c => simp [registerGo_sign_err env b resp c hb ha hs]
      | ok sig =>
        cases hr : env.registerResult (countRegister b.trace)
            ⟨resp.challengeID, sig⟩ with
        | error c => simp [registerGo_register_err env b resp sig c hb ha hs hr]
        | ok u =>
          cases u
          simp [registerGo_ok env b resp sig hb ha hs hr]

theorem registerGo_registered_iff (env : RegisterEnv) (b : BuilderState) :
    (RegisterGo env b).2.registered = true ↔
      (b.registered = true ∨ (RegisterGo env b).1 = .ok ()) := by
  cases hb : b.registered with
  | true => simp [registerGo_fast env b hb, hb]
  | false =>
    cases ha : env.applyResult (countApply b.trace) with
    | error c => simp [registerGo_apply_err env b c hb ha, hb]
    | ok resp =>
      cases hs : env.signChallengeResult (countSignChallenge b.trace)
          resp.challenge with
      | error c => simp [registerGo_sign_err env b resp c hb ha hs, hb]
      | ok sig =>
        cases hr : env.registerResult (countRegister b.trace)
            ⟨resp.challengeID, sig⟩ with
        | error c => simp [registerGo_register_err env b resp sig c hb ha hs hr, hb]
        | ok u =>
          cases u
          simp [registerGo_ok env b resp sig hb ha hs hr, hb]

theorem registerGo_buildcounts (env : RegisterEnv) (b : BuilderState) :
    countSignBuild (RegisterGo env b).2.trace = countSignBuild b.trace ∧
    countBuild (RegisterGo env b).2.trace = countBuild b.trace := by
  cases hb : b.registered with
  | true => simp [registerGo_fast env b hb]
  | false =>
    cases ha : env.applyResult (countApply b.trace) with
    | error c =>
      simp [registerGo_apply_err env b c hb ha, countSignBuild, countBuild,
        List.countP_append]
    | ok resp =>
      cases hs : env.signChallengeResult (countSignChallenge b.trace)
          resp.challenge with
      | error c =>
        simp [registerGo_sign_err env b resp c hb ha hs, countSignBuild,
          countBuild, List.countP_append]
      | ok sig =>
        cases hr : env.registerResult (countRegister b.trace)
            ⟨resp.challengeID, sig⟩ with
        | error c =>
          simp [registerGo_register_err env b resp sig c hb ha hs hr,
            countSignBuild, countBuild, List.countP_append]
        | ok u =>
          cases u
          simp [registerGo_ok env b resp sig hb ha hs hr, countSignBuild,
            countBuild, List.countP_append]

theorem registerGo_ok_counts (env : RegisterEnv) (b : BuilderState)
    (hb : b.registered = false) (h : (RegisterGo env b).1 = .ok ()) :
    (RegisterGo env b).2.registered = true ∧
    countApply (RegisterGo env b).2.trace = countApply b.trace + 1 ∧
    countRegister (RegisterGo env b).2.trace = countRegister b.trace + 1 := by
  cases ha : env.applyResult (countApply b.trace) with
  | error c => rw [registerGo_apply_err env b c hb ha] at h; exact absurd h (by simp)
  | ok resp =>
    cases hs : env.signChallengeResult (countSignChallenge b.trace)
        resp.challenge with
    | error c => rw [registerGo_sign_err env b resp c hb ha hs] at h; exact absurd h (by simp)
    | ok sig =>
      cases hr : env.registerResult (countRegister b.trace)
          ⟨resp.challengeID, sig⟩ with
      | error c =>
        rw [registerGo_register_err env b resp sig c hb ha hs hr] at h
        exact absurd h (by simp)
      | ok u =>
        cases u
        simp [registerGo_ok env b resp sig hb ha hs hr, countApply,
          countRegister, List.countP_append]

theorem registerGo_err_state (env : RegisterEnv) (b : BuilderState)
    (e : RegisterError) (h : (RegisterGo env b).1 = .error e) :
    b.registered = false ∧ (RegisterGo env b).2.registered = false := by
  cases hb : b.registered with
  | true => rw [registerGo_fast env b hb] at h; exact absurd h (by simp)
  | false =>
    refine ⟨rfl, ?_⟩
    cases hr2 : (RegisterGo env b).2.registered with
    | false => rfl
    | true =>
      rcases (registerGo_registered_iff env b).mp hr2 with h1 | h1
      · rw [hb] at h1; exact absurd h1 (by simp)
      · rw [h] at h1; exact absurd h1 (by simp)

theorem buildBlockGo_reg_err (env : BuildEnv) (b : BuilderState)
    (e : RegisterError) (h : (RegisterGo env.regEnv b).1 = .error e) :
    BuildBlockGo env b = (.error (.register e), (RegisterGo env.regEnv b).2) := by
  rcases hreg : RegisterGo env.regEnv b with ⟨r, b2⟩
  rw [hreg] at h
  simp only at h
  subst h
  simp [BuildBlockGo, hreg]

theorem buildBlockGo_reg_ok (env : BuildEnv) (b : BuilderState)
    (h : (RegisterGo env.regEnv b).1 = .ok ()) :
    (BuildBlockGo env b).2.registered = (RegisterGo env.regEnv b).2.registered ∧
    countApply (BuildBlockGo env b).2.trace =
      countApply (RegisterGo env.regEnv b).2.trace ∧
    countRegister (BuildBlockGo env b).2.trace =
      countRegister (RegisterGo env.regEnv b).2.trace ∧
    countSignChallenge (BuildBlockGo env b).2.trace =
      countSignChallenge (RegisterGo env.regEnv b).2.trace := by
  rcases hreg : RegisterGo env.regEnv b with ⟨r, b2⟩
  rw [hreg] at h
  simp only at h
  subst h
  unfold BuildBlockGo
  rw [hreg]
  cases hs : env.signBuildResult (countSignBuild b2.trace) with
  | error c =>
    simp [hs, countApply, countRegister, countSignChallenge, List.countP_append]
  | ok u =>
    cases u
    cases hbr : env.buildResult (countBuild (b2.trace ++ [Event.signBuildInvoked])) with
    | error c =>
      simp [hs, hbr, countApply, countRegister, countSignChallenge,
        List.countP_append]
    | ok u2 =>
      cases u2
      simp [hs, hbr, countApply, countRegister, countSignChallenge,
        List.countP_append]

theorem buildBlockGo_sign_err (env : BuildEnv) (b : BuilderState) (c : String)
    (hok : (RegisterGo env.regEnv b).1 = .ok ())
    (hs : env.signBuildResult
      (countSignBuild (RegisterGo env.regEnv b).2.trace) = .error c) :
    (BuildBlockGo env b).1 = .error (.sign c) ∧
    countBuild (BuildBlockGo env b).2.trace = countBuild b.trace := by
  rcases hreg : RegisterGo env.regEnv b with ⟨r, b2⟩
  rw [hreg] at hok hs
  simp only at hok hs
  subst hok
  have hb2 : countBuild b2.trace = countBuild b.trace := by
    have := (registerGo_buildcounts env.regEnv b).2
    rw [hreg] at this
    exact this
  unfold BuildBlockGo
  rw [hreg]
  simp only [hs]
  refine ⟨by trivial, ?_⟩
  show countBuild (b2.trace ++ [Event.signBuildInvoked]) = countBuild b.trace
  rw [← hb2]
  simp [countBuild, List.countP_append]

theorem runBuilds_registered (envs : List BuildEnv) (b : BuilderState)
    (h : b.registered = true) :
    (runBuilds envs b).registered = true ∧
    countApply (runBuilds envs b).trace = countApply b.trace ∧
    countRegister (runBuilds envs b).trace = countRegister b.trace := by
  induction envs generalizing b with
  | nil => exact ⟨h, rfl, rfl⟩
  | cons e es ih =>
    have hstep : (BuildBlockGo e b).2.registered = true ∧
        countApply (BuildBlockGo e b).2.trace = countApply b.trace ∧
        countRegister (BuildBlockGo e b).2.trace = countRegister b.trace := by
      have hfast := registerGo_fast e.regEnv b h
      have hok : (RegisterGo e.regEnv b).1 = .ok () := by rw [hfast]
      have hmain := buildBlockGo_reg_ok e b hok
      rw [hfast] at hmain
      exact ⟨by rw [hmain.1, h], hmain.2.1, hmain.2.2.1⟩
    have := ih (BuildBlockGo e b).2 hstep.1
    refine ⟨?_, ?_, ?_⟩
    · simpa [runBuilds] using this.1
    · calc countApply (runBuilds (e :: es) b).trace
          = countApply (runBuilds es (BuildBlockGo e b).2).trace := rfl
        _ = countApply (BuildBlockGo e b).2.trace := this.2.1
        _ = countApply b.trace := hstep.2.1
    · calc countRegister (runBuilds (e :: es) b).trace
          = countRegister (runBuilds es (BuildBlockGo e b).2).trace := rfl
        _ = countRegister (BuildBlockGo e b).2.trace := this.2.2
        _ = countRegister b.trace := hstep.2.2

/-- Claim C4 (code bug): `NewBuilder` and `SetCompression(true)` both leave
`disableCompression = 0`, yet `do` computes `compress :=
atomic.LoadInt32(&b.disableCompression) != 0`, so with compression enabled
the body is not gzipped and no `content-encoding` header is set, while
`SetCompression(false)` produces a gzipped body with the header — the
polarity is inverted relative to `SetCompression` and its documentation
("By default, compression is enabled").  The header and the body framing do
agree in every call, as both follow the single `compress` local. -/
theorem C4_compression_flag_inverted :
    doFraming (SetCompression true) =
      { gzipBody := false, contentEncodingGzip := false } ∧
    doFraming newBuilderDisableCompression =
      { gzipBody := false, contentEncodingGzip := false } ∧
    doFraming (SetCompression false) =
      { gzipBody := true, contentEncodingGzip := true } ∧
    (∀ d, (doFraming d).contentEncodingGzip = (doFraming d).gzipBody) :=
  ⟨rfl, rfl, rfl, fun _ => rfl⟩

/-- Claim C5 counterexample: for a 500 response whose body `oops` does not
decode as `{error: string}` JSON, `do` reports the wrapped unmarshal error
text, not the raw response body text that the claim promises. -/
theorem C5_raw_body_fallback_refuted :
    doHandleResponse
        ⟨500, "oops", none, "invalid character", true, ""⟩ =
      .error "response code 500 (unmarshal error: invalid character)" ∧
    doHandleResponse
        ⟨500, "oops", none, "invalid character", true, ""⟩ ≠
      .error "response code 500 (oops)" := by
  refine ⟨by rfl, ?_⟩
  intro h
  rw [show doHandleResponse ⟨500, "oops", none, "invalid character", true, ""⟩ =
    .error "response code 500 (unmarshal error: invalid character)" from rfl] at h
  exact absurd (Except.error.inj h) (by decide)

/-- Claim C5 (amended): on a non-200 status `do` fails with
`response code <status> (<msg>)`, where `<msg>` is the decoded `error`
field when the body decodes as `{error: string}` JSON and the wrapped
unmarshal-error text (not the raw body) when that decode fails; on a 200
status whose body fails to decode into the response value, `do` also
returns an error. -/
theorem C5_error_reporting_amended (res : HTTPResponse) :
    (res.statusCode ≠ 200 →
      doHandleResponse res =
        .error ("response code " ++ toString res.statusCode ++ " (" ++
          (match res.errorFieldDecode with
           | some e => e
           | none => "unmarshal error: " ++ res.errorDecodeMsg) ++ ")")) ∧
    (res.statusCode = 200 → res.respDecodeOk = false →
      doHandleResponse res =
        .error ("unmarshal response: " ++ res.respDecodeMsg)) := by
  constructor
  · intro h
    simp [doHandleResponse, h]
  · intro h hdec
    simp [doHandleResponse, h, hdec]

/-- Claim C5 witness: the amended error-reporting statement applied at a
concrete 500 response carrying a decodable `{error: string}` body, and at a
200 response whose body does not decode. -/
theorem C5_error_reporting_amended_witness :
    doHandleResponse ⟨500, "\x7b\"error\": \"boom\"\x7d", some "boom", "", true, ""⟩ =
      .error "response code 500 (boom)" ∧
    doHandleResponse ⟨200, "garbage", none, "", false, "invalid body"⟩ =
      .error "unmarshal response: invalid body" := by
  constructor
  · exact ((C5_error_reporting_amended _).1 (by decide)).trans
      (congrArg Except.error (by decide))
  · exact ((C5_error_reporting_amended _).2 rfl rfl).trans
      (congrArg Except.error (by decide))

/-- Claim C6: the `registered` flag starts false at construction, a
`Register` call on a registered builder is a no-op returning nil, the flag
ends true exactly when it already was true or the call returned nil (so it
is set only by a fully successful `Register` and never reverts, including
through `BuildBlock`), and once a `Register` call has returned nil every
subsequent `Register` call returns nil with the state — in particular the
trace of outgoing calls — unchanged. -/
theorem C6_registered_monotonic :
    (∀ c v p, (NewBuilderState c v p).registered = false) ∧
    (∀ env b, b.registered = true → RegisterGo env b = (.ok (), b)) ∧
    (∀ env b, (RegisterGo env b).2.registered = true ↔
      (b.registered = true ∨ (RegisterGo env b).1 = .ok ())) ∧
    (∀ env b, b.registered = true → (BuildBlockGo env b).2.registered = true) ∧
    (∀ env env2 b, (RegisterGo env b).1 = .ok () →
      RegisterGo env2 (RegisterGo env b).2 = (.ok (), (RegisterGo env b).2)) := by
  refine ⟨fun c v p => rfl, registerGo_fast, registerGo_registered_iff,
    ?_, ?_⟩
  · intro env b h
    have hok : (RegisterGo env.regEnv b).1 = .ok () := by
      rw [registerGo_fast env.regEnv b h]
    have hmain := (buildBlockGo_reg_ok env b hok).1
    rw [hmain, registerGo_fast env.regEnv b h]
    exact h
  · intro env env2 b h
    have hreg : (RegisterGo env b).2.registered = true :=
      (registerGo_registered_iff env b).mpr (.inr h)
    exact registerGo_fast env2 _ hreg

/-- Claim C6 witness: the monotonicity statement applied at concrete
environments and builder states. -/
theorem C6_registered_monotonic_witness :
    RegisterGo envOk ⟨"c", "v", "p", true, []⟩ =
      (.ok (), ⟨"c", "v", "p", true, []⟩) ∧
    (BuildBlockGo benvOk ⟨"c", "v", "p", true, []⟩).2.registered = true ∧
    RegisterGo envOk (RegisterGo envOk b0W).2 =
      (.ok (), (RegisterGo envOk b0W).2) :=
  ⟨C6_registered_monotonic.2.1 envOk _ rfl,
   C6_registered_monotonic.2.2.2.1 benvOk _ rfl,
   C6_registered_monotonic.2.2.2.2 envOk envOk b0W rfl⟩

/-- Claim C7: a failed `Register` is all-or-nothing — whichever phase fails
(apply, signer, register), the call returns an error wrapping that phase's
cause, the `registered` flag stays false, the constructor-derived fields are
unchanged, and only the calls made so far appear in the trace; a subsequent
`Register` call re-runs the apply phase and registers with the challenge id
of the fresh apply response (not the stale one), succeeding when the
environment does. -/
theorem C7_register_all_or_nothing :
    (∀ env b c, b.registered = false →
      env.applyResult (countApply b.trace) = .error c →
      RegisterGo env b = (.error (.application c),
        { b with trace := b.trace ++
            [Event.applySent ⟨b.chainID, b.validatorAddr, b.paymentAddr⟩] })) ∧
    (∀ env b resp c, b.registered = false →
      env.applyResult (countApply b.trace) = .ok resp →
      env.signChallengeResult (countSignChallenge b.trace) resp.challenge =
        .error c →
      RegisterGo env b = (.error (.signChallenge c),
        { b with trace := b.trace ++
            [Event.applySent ⟨b.chainID, b.validatorAddr, b.paymentAddr⟩,
             Event.signChallengeInvoked resp.challenge] })) ∧
    (∀ env b resp sig c, b.registered = false →
      env.applyResult (countApply b.trace) = .ok resp →
      env.signChallengeResult (countSignChallenge b.trace) resp.challenge =
        .ok sig →
      env.registerResult (countRegister b.trace) ⟨resp.challengeID, sig⟩ =
        .error c →
      RegisterGo env b = (.error (.registration c),
        { b with trace := b.trace ++
            [Event.applySent ⟨b.chainID, b.validatorAddr, b.paymentAddr⟩,
             Event.signChallengeInvoked resp.challenge,
             Event.registerSent ⟨resp.challengeID, sig⟩] })) ∧
    (∀ env b e, (RegisterGo env b).1 = .error e →
      (RegisterGo env b).2.registered = false ∧
      (RegisterGo env b).2.chainID = b.chainID ∧
      (RegisterGo env b).2.validatorAddr = b.validatorAddr ∧
      (RegisterGo env b).2.paymentAddr = b.paymentAddr) ∧
    (∀ env b b1 resp0 sig0 c resp1 sig1, b.registered = false →
      env.applyResult (countApply b.trace) = .ok resp0 →
      env.signChallengeResult (countSignChallenge b.trace) resp0.challenge =
        .ok sig0 →
      env.registerResult (countRegister b.trace) ⟨resp0.challengeID, sig0⟩ =
        .error c →
      b1 = (RegisterGo env b).2 →
      env.applyResult (countApply b1.trace) = .ok resp1 →
      env.signChallengeResult (countSignChallenge b1.trace) resp1.challenge =
        .ok sig1 →
      env.registerResult (countRegister b1.trace) ⟨resp1.challengeID, sig1⟩ =
        .ok () →
      (RegisterGo env b).1 = .error (.registration c) ∧
      b1.registered = false ∧
      RegisterGo env b1 = (.ok (),
        { b1 with registered := true,
                  trace := b1.trace ++
            [Event.applySent ⟨b1.chainID, b1.validatorAddr, b1.paymentAddr⟩,
             Event.signChallengeInvoked resp1.challenge,
             Event.registerSent ⟨resp1.challengeID, sig1⟩] })) := by
  refine ⟨registerGo_apply_err, registerGo_sign_err, registerGo_register_err,
    ?_, ?_⟩
  · intro env b e h
    obtain ⟨hb, hreg⟩ := registerGo_err_state env b e h
    obtain ⟨h1, h2, h3⟩ := registerGo_const env b
    exact ⟨hreg, h1, h2, h3⟩
  · intro env b b1 resp0 sig0 c resp1 sig1 hb ha0 hs0 hr0 hb1 ha1 hs1 hr1
    have hfail := registerGo_register_err env b resp0 sig0 c hb ha0 hs0 hr0
    refine ⟨by rw [hfail], ?_, ?_⟩
    · rw [hb1, hfail]
      exact hb
    · have hb1reg : b1.registered = false := by
        rw [hb1, hfail]
        exact hb
      exact registerGo_ok env b1 resp1 sig1 hb1reg ha1 hs1 hr1

/-- Claim C7 witness: a first attempt against `envRetry` fails at the
register exchange with the wrapped cause, leaves the flag false, and the
retry registers with the fresh challenge id `challenge-1` from the second
apply response and succeeds. -/
theorem C7_register_all_or_nothing_witness :
    (RegisterGo envRetry b0W).1 = .error (.registration "bad signature") ∧
    b1W.registered = false ∧
    RegisterGo envRetry b1W = (.ok (),
      { b1W with registered := true,
                 trace := b1W.trace ++
          [Event.applySent ⟨b1W.chainID, b1W.validatorAddr, b1W.paymentAddr⟩,
           Event.signChallengeInvoked [7, 7],
           Event.registerSent ⟨"challenge-1", [0, 7, 7]⟩] }) :=
  C7_register_all_or_nothing.2.2.2.2 envRetry b0W b1W
    ⟨"challenge-0", [7, 7]⟩ [0, 7, 7] "bad signature"
    ⟨"challenge-1", [7, 7]⟩ [0, 7, 7]
    rfl rfl rfl rfl rfl rfl rfl rfl

/-- Claim C8 counterexample: the `BuildBlock` of the Builder revision in
mekabuild/types.go (lines 181-192) does not call `Register` first — that
revision has no `Register` at all.  A concrete call on a fresh builder
succeeds with the signer invoked as the very first outgoing call, a build
request sent, and zero apply or register exchanges, refuting "every
BuildBlock call first calls Register" for that cited code. -/
theorem C8_typesgo_builds_without_register :
    (BuildBlockGoTypes ⟨fun _ => .ok (), fun _ => .ok ()⟩ []).1 = .ok () ∧
    (BuildBlockGoTypes ⟨fun _ => .ok (), fun _ => .ok ()⟩ []).2 =
      [Event.signBuildInvoked, Event.buildSent] ∧
    countApply (BuildBlockGoTypes ⟨fun _ => .ok (), fun _ => .ok ()⟩ []).2 =
      0 ∧
    countRegister
      (BuildBlockGoTypes ⟨fun _ => .ok (), fun _ => .ok ()⟩ []).2 = 0 :=
  ⟨rfl, rfl, rfl, rfl⟩

/-- Claim C8 (amended): in the `part_002` Builder, `BuildBlock` registers
first — a registration failure is returned (wrapped as a register error)
before the signer is invoked on the request and before any build exchange, a
signer failure after successful registration is returned before any build
exchange, and across any number of `BuildBlock` calls the registration
handshake completes exactly once (a first call whose registration succeeds
contributes one apply and one register exchange, and no later call adds
any), registered builders adding none at all.  The Builder revision in
mekabuild/types.go (lines 181-192) has no `Register` method: its
`BuildBlock` invokes the signer immediately and performs no apply, register
or challenge-signing exchange whatsoever, though a signer failure still
aborts it with a wrapped cause before any build exchange. -/
theorem C8_buildblock_sequencing :
    (∀ env b e, (RegisterGo env.regEnv b).1 = .error e →
      BuildBlockGo env b =
        (.error (.register e), (RegisterGo env.regEnv b).2) ∧
      countSignBuild (BuildBlockGo env b).2.trace = countSignBuild b.trace ∧
      countBuild (BuildBlockGo env b).2.trace = countBuild b.trace) ∧
    (∀ env b c, (RegisterGo env.regEnv b).1 = .ok () →
      env.signBuildResult
        (countSignBuild (RegisterGo env.regEnv b).2.trace) = .error c →
      (BuildBlockGo env b).1 = .error (.sign c) ∧
      countBuild (BuildBlockGo env b).2.trace = countBuild b.trace) ∧
    (∀ env b envs, b.registered = false →
      (RegisterGo env.regEnv b).1 = .ok () →
      countApply (runBuilds envs (BuildBlockGo env b).2).trace =
        countApply b.trace + 1 ∧
      countRegister (runBuilds envs (BuildBlockGo env b).2).trace =
        countRegister b.trace + 1) ∧
    (∀ env b, b.registered = true →
      countApply (BuildBlockGo env b).2.trace = countApply b.trace ∧
      countRegister (BuildBlockGo env b).2.trace = countRegister b.trace) ∧
    (∀ env tr c, env.signResult (countSignBuild tr) = .error c →
      (BuildBlockGoTypes env tr).1 = .error ("sign request: " ++ c) ∧
      countBuild (BuildBlockGoTypes env tr).2 = countBuild tr) ∧
    (∀ env tr,
      countApply (BuildBlockGoTypes env tr).2 = countApply tr ∧
      countRegister (BuildBlockGoTypes env tr).2 = countRegister tr ∧
      countSignChallenge (BuildBlockGoTypes env tr).2 =
        countSignChallenge tr ∧
      countSignBuild (BuildBlockGoTypes env tr).2 = countSignBuild tr + 1) := by
  refine ⟨?_, buildBlockGo_sign_err, ?_, ?_, ?_, ?_⟩
  · intro env b e h
    have heq := buildBlockGo_reg_err env b e h
    refine ⟨heq, ?_, ?_⟩
    · rw [heq]
      exact (registerGo_buildcounts env.regEnv b).1
    · rw [heq]
      exact (registerGo_buildcounts env.regEnv b).2
  · intro env b envs hb hok
    have hcounts := registerGo_ok_counts env.regEnv b hb hok
    have htail := buildBlockGo_reg_ok env b hok
    have hreged : (BuildBlockGo env b).2.registered = true := by
      rw [htail.1]
      exact hcounts.1
    have hrun := runBuilds_registered envs (BuildBlockGo env b).2 hreged
    constructor
    · rw [hrun.2.1, htail.2.1, hcounts.2.1]
    · rw [hrun.2.2, htail.2.2.1, hcounts.2.2]
  · intro env b h
    have hok : (RegisterGo env.regEnv b).1 = .ok () := by
      rw [registerGo_fast env.regEnv b h]
    have htail := buildBlockGo_reg_ok env b hok
    constructor
    · rw [htail.2.1, registerGo_fast env.regEnv b h]
    · rw [htail.2.2.1, registerGo_fast env.regEnv b h]
  · intro env tr c hs
    unfold BuildBlockGoTypes
    rw [hs]
    exact ⟨rfl, by simp [countBuild, List.countP_append]⟩
  · intro env tr
    unfold BuildBlockGoTypes
    cases hs : env.signResult (countSignBuild tr) with
    | error c =>
      simp [hs, countApply, countRegister, countSignChallenge, countSignBuild,
        List.countP_append]
    | ok u =>
      cases u
      cases hb : env.buildResult (countBuild (tr ++ [Event.signBuildInvoked])) with
      | error c =>
        simp [hs, hb, countApply, countRegister, countSignChallenge,
          countSignBuild, List.countP_append]
      | ok u2 =>
        cases u2
        simp [hs, hb, countApply, countRegister, countSignChallenge,
          countSignBuild, List.countP_append]

/-- Claim C8 witness: the sequencing statement applied at concrete build
environments — a failing apply exchange, a failing build-request signer
(against both Builder revisions), and a fully successful first call followed
by another call. -/
theorem C8_buildblock_sequencing_witness :
    (BuildBlockGo benvApplyFail b0W =
      (.error (.register (.application "connection refused")),
       (RegisterGo envApplyFail b0W).2) ∧
     countSignBuild (BuildBlockGo benvApplyFail b0W).2.trace =
       countSignBuild b0W.trace ∧
     countBuild (BuildBlockGo benvApplyFail b0W).2.trace =
       countBuild b0W.trace) ∧
    ((BuildBlockGo benvSignFail b0W).1 = .error (.sign "no key") ∧
     countBuild (BuildBlockGo benvSignFail b0W).2.trace =
       countBuild b0W.trace) ∧
    (countApply (runBuilds [benvOk] (BuildBlockGo benvOk b0W).2).trace =
       countApply b0W.trace + 1 ∧
     countRegister (runBuilds [benvOk] (BuildBlockGo benvOk b0W).2).trace =
       countRegister b0W.trace + 1) ∧
    ((BuildBlockGoTypes ⟨fun _ => .error "no key", fun _ => .ok ()⟩ []).1 =
       .error "sign request: no key" ∧
     countBuild
       (BuildBlockGoTypes ⟨fun _ => .error "no key", fun _ => .ok ()⟩ []).2 =
       countBuild ([] : List Event)) :=
  ⟨C8_buildblock_sequencing.1 benvApplyFail b0W _ rfl,
   C8_buildblock_sequencing.2.1 benvSignFail b0W "no key" rfl rfl,
   C8_buildblock_sequencing.2.2.1 benvOk b0W [benvOk] rfl rfl,
   C8_buildblock_sequencing.2.2.2.2.1
     ⟨fun _ => .error "no key", fun _ => .ok ()⟩ [] "no key" rfl⟩

namespace Concurrent

theorem counts_append_applySent (tr : List Event) (r : ApplyRequest) :
    countApply (tr ++ [Event.applySent r]) = countApply tr + 1 ∧
    countRegister (tr ++ [Event.applySent r]) = countRegister tr := by
  simp [countApply, countRegister, List.countP_append]

theorem counts_append_signChallenge (tr : List Event) (ch : List Nat) :
    countApply (tr ++ [Event.signChallengeInvoked ch]) = countApply tr ∧
    countRegister (tr ++ [Event.signChallengeInvoked ch]) = countRegister tr := by
  simp [countApply, countRegister, List.countP_append]

theorem counts_append_registerSent (tr : List Event) (r : RegisterRequest) :
    countApply (tr ++ [Event.registerSent r]) = countApply tr ∧
    countRegister (tr ++ [Event.registerSent r]) = countRegister tr + 1 := by
  simp [countApply, countRegister, List.countP_append]

theorem counts_append_signBuild (tr : List Event) :
    countApply (tr ++ [Event.signBuildInvoked]) = countApply tr ∧
    countRegister (tr ++ [Event.signBuildInvoked]) = countRegister tr := by
  simp [countApply, countRegister, List.countP_append]

theorem counts_append_buildSent (tr : List Event) :
    countApply (tr ++ [Event.buildSent]) = countApply tr ∧
    countRegister (tr ++ [Event.buildSent]) = countRegister tr := by
  simp [countApply, countRegister, List.countP_append]

theorem set_lookup_self {l : List (TKind × Phase)} {i : Nat}
    {y x : TKind × Phase} (hi : l[i]? = some y) :
    (l.set i x)[i]? = some x := by
  obtain ⟨hlt, -⟩ := List.getElem?_eq_some_iff.mp hi
  exact List.getElem?_set_self hlt

theorem set_lookup_cases {l : List (TKind × Phase)} {i j : Nat}
    {x z : TKind × Phase} (h : (l.set i x)[j]? = some z) :
    (j = i ∧ z = x) ∨ (j ≠ i ∧ l[j]? = some z) := by
  by_cases hji : j = i
  · subst hji
    left
    refine ⟨rfl, ?_⟩
    by_cases hlt : j < l.length
    · rw [List.getElem?_set_self hlt] at h
      exact (Option.some.inj h).symm
    · rw [List.getElem?_eq_none (by simp; omega)] at h
      exact Option.noConfusion h
  · right
    refine ⟨hji, ?_⟩
    rwa [List.getElem?_set_ne (fun hij => hji hij.symm)] at h

theorem midPhase_regSeq {ph : Phase}
    (h : ph = Phase.applying ∨ ph.postApply = true) : ph.inRegSeq = true := by
  cases ph <;> simp_all [Phase.postApply, Phase.inRegSeq]

theorem step_threads_length (env : ConcEnv) {s : Sys} {i : Nat} {s' : Sys}
    (h : stepThread env s i = some s') :
    s'.threads.length = s.threads.length := by
  unfold stepThread at h
  repeat' split at h
  all_goals try dsimp only at h
  repeat' split at h
  all_goals
    first
      | exact Option.noConfusion h
      | (injection h with h; subst h; simp)

theorem run_threads_length (env : ConcEnv) (sched : List Nat) (s : Sys) :
    (run env sched s).threads.length = s.threads.length := by
  induction sched generalizing s with
  | nil => rfl
  | cons a as ih =>
    show (run env as
      (match stepThread env s a with | some t => t | none => s)).threads.length =
      s.threads.length
    cases hst : stepThread env s a with
    | none => exact ih s
    | some t => rw [ih t, step_threads_length env hst]

theorem inv_init (c v p : String) (kinds : List TKind) :
    Inv (initSys c v p kinds) := by
  constructor
  · intro i hj
    exact Option.noConfusion hj
  · intro j k ph hth hseq
    simp only [initSys] at hth
    rw [List.getElem?_map] at hth
    cases hk : kinds[j]? with
    | none => rw [hk] at hth; exact Option.noConfusion hth
    | some k0 =>
      rw [hk] at hth
      injection hth with hth
      have : ph = Phase.start := congrArg Prod.snd hth |>.symm
      rw [this] at hseq
      exact absurd hseq (by decide)
  · intro _
    refine ⟨rfl, rfl, ?_⟩
    intro j k ph hth
    simp only [initSys] at hth
    rw [List.getElem?_map] at hth
    cases hk : kinds[j]? with
    | none => rw [hk] at hth; exact Option.noConfusion hth
    | some k0 =>
      rw [hk] at hth
      injection hth with hth
      have : ph = Phase.start := congrArg Prod.snd hth |>.symm
      rw [this]
      rfl
  · intro h
    exact Bool.noConfusion h
  · intro j k b hth
    simp only [initSys] at hth
    rw [List.getElem?_map] at hth
    cases hk : kinds[j]? with
    | none => rw [hk] at hth; exact Option.noConfusion hth
    | some k0 =>
      rw [hk] at hth
      injection hth with hth
      exact Phase.noConfusion (congrArg Prod.snd hth)

theorem inv_step (env : ConcEnv) (henv : SuccessEnv env) {s s' : Sys}
    {i : Nat} (h : stepThread env s i = some s') (hinv : Inv s) : Inv s' := by
  obtain ⟨henvA, henvS, henvR, henvSB, henvB⟩ := henv
  cases hget : s.threads[i]? with
  | none => simp [stepThread, hget] at h
  | some kp =>
  obtain ⟨k, ph⟩ := kp
  cases ph with
  | start =>
    cases howner : s.owner with
    | some j => simp [stepThread, hget, howner] at h
    | none =>
      simp only [stepThread, hget, howner] at h
      injection h with h
      subst h
      refine ⟨?_, ?_, ?_, ?_, ?_⟩
      · intro j hj
        obtain rfl : i = j := Option.some.inj hj
        exact ⟨k, Phase.checking, set_lookup_self hget, rfl⟩
      · intro j k2 ph2 hth hseq
        rcases set_lookup_cases hth with ⟨rfl, hz⟩ | ⟨hne, hold⟩
        · rfl
        · have hcon := hinv.midOwner j k2 ph2 hold hseq
          rw [howner] at hcon
          exact Option.noConfusion hcon
      · intro hreg
        obtain ⟨hr0, ha0, hpost⟩ := hinv.regFalse hreg
        refine ⟨hr0, ?_, ?_⟩
        · rw [show (countApply s.trace = midApplyCount s) from ha0]
          simp [midApplyCount, howner, set_lookup_self hget, Phase.postApply]
        · intro j k2 ph2 hth
          rcases set_lookup_cases hth with ⟨rfl, hz⟩ | ⟨hne, hold⟩
          · have hp : ph2 = Phase.checking := congrArg Prod.snd hz
            rw [hp]
            rfl
          · exact hpost j k2 ph2 hold
      · intro hreg
        obtain ⟨h1, h2, h3⟩ := hinv.regTrue hreg
        refine ⟨h1, h2, ?_⟩
        intro j k2 ph2 hth hcase
        rcases set_lookup_cases hth with ⟨rfl, hz⟩ | ⟨hne, hold⟩
        · have hp : ph2 = Phase.checking := congrArg Prod.snd hz
          rw [hp] at hcase
          rcases hcase with hc | hc
          · exact Phase.noConfusion hc
          · exact absurd hc (by decide)
        · exact h3 j k2 ph2 hold hcase
      · intro j k2 b hth
        rcases set_lookup_cases hth with ⟨rfl, hz⟩ | ⟨hne, hold⟩
        · exact Phase.noConfusion (congrArg Prod.snd hz)
        · exact hinv.doneTrue j k2 b hold
  | checking =>
    cases hreg : s.registered with
    | true =>
      simp only [stepThread, hget, hreg, if_pos] at h
      injection h with h
      subst h
      obtain ⟨hA1, hR1, hNoMid⟩ := hinv.regTrue hreg
      refine ⟨?_, ?_, ?_, ?_, ?_⟩
      · intro j hj
        exact Option.noConfusion hj
      · intro j k2 ph2 hth hseq
        rcases set_lookup_cases hth with ⟨rfl, hz⟩ | ⟨hne, hold⟩
        · have hp : ph2 = afterRegistered k := congrArg Prod.snd hz
          rw [hp] at hseq
          cases k <;> exact absurd hseq (by decide)
        · have h1 := hinv.midOwner j k2 ph2 hold hseq
          have h2 := hinv.midOwner i k Phase.checking hget rfl
          rw [h1] at h2
          exact absurd (Option.some.inj h2) hne
      · intro hcontra
        exact Bool.noConfusion hcontra
      · intro _
        refine ⟨hA1, hR1, ?_⟩
        intro j k2 ph2 hth hcase
        rcases set_lookup_cases hth with ⟨rfl, hz⟩ | ⟨hne, hold⟩
        · have hp : ph2 = afterRegistered k := congrArg Prod.snd hz
          rw [hp] at hcase
          cases k <;> rcases hcase with hc | hc <;>
            first
              | exact Phase.noConfusion hc
              | exact absurd hc (by decide)
        · exact hNoMid j k2 ph2 hold hcase
      · intro j k2 b hth
        rcases set_lookup_cases hth with ⟨rfl, hz⟩ | ⟨hne, hold⟩
        · have hp : Phase.done b = afterRegistered k := congrArg Prod.snd hz
          cases k with
          | registerOnly => injection hp
          | buildBlock => exact Phase.noConfusion hp
        · exact hinv.doneTrue j k2 b hold
    | false =>
      simp only [stepThread, hget, hreg, if_neg] at h
      injection h with h
      subst h
      have howner : s.owner = some i := hinv.midOwner i k Phase.checking hget rfl
      obtain ⟨hr0, ha0, hpost⟩ := hinv.regFalse hreg
      refine ⟨?_, ?_, ?_, ?_, ?_⟩
      · intro j hj
        have hj2 : s.owner = some j := hj
        obtain rfl : i = j := Option.some.inj (howner.symm.trans hj2)
        exact ⟨k, Phase.applying, set_lookup_self hget, rfl⟩
      · intro j k2 ph2 hth hseq
        rcases set_lookup_cases hth with ⟨rfl, hz⟩ | ⟨hne, hold⟩
        · exact howner
        · exact hinv.midOwner j k2 ph2 hold hseq
      · intro _
        refine ⟨hr0, ?_, ?_⟩
        · rw [show (countApply s.trace = midApplyCount s) from ha0]
          simp [midApplyCount, howner, hget, set_lookup_self hget,
            Phase.postApply]
        · intro j k2 ph2 hth
          rcases set_lookup_cases hth with ⟨rfl, hz⟩ | ⟨hne, hold⟩
          · have hp : ph2 = Phase.applying := congrArg Prod.snd hz
            rw [hp]
            rfl
          · exact hpost j k2 ph2 hold
      · intro hcontra
        exact Bool.noConfusion hcontra
      · intro j k2 b hth
        rcases set_lookup_cases hth with ⟨rfl, hz⟩ | ⟨hne, hold⟩
        · exact Phase.noConfusion (congrArg Prod.snd hz)
        · exact hinv.doneTrue j k2 b hold
  | applying =>
    obtain ⟨resp, hresp⟩ := henvA (countApply s.trace)
    simp only [stepThread, hget, hresp] at h
    injection h with h
    subst h
    have howner : s.owner = some i :=
      hinv.midOwner i k Phase.applying hget rfl
    have hregF : s.registered = false := by
      cases hr : s.registered
      · rfl
      · exact ((hinv.regTrue hr).2.2 i k Phase.applying hget (Or.inl rfl)).elim
    obtain ⟨hr0, ha0, hpost⟩ := hinv.regFalse hregF
    refine ⟨?_, ?_, ?_, ?_, ?_⟩
    · intro j hj
      have hj2 : s.owner = some j := hj
      obtain rfl : i = j := Option.some.inj (howner.symm.trans hj2)
      exact ⟨k, Phase.signing resp, set_lookup_self hget, rfl⟩
    · intro j k2 ph2 hth hseq
      rcases set_lookup_cases hth with ⟨rfl, hz⟩ | ⟨hne, hold⟩
      · exact howner
      · exact hinv.midOwner j k2 ph2 hold hseq
    · intro _
      refine ⟨?_, ?_, ?_⟩
      · show countRegister (s.trace ++
          [Event.applySent ⟨s.chainID, s.validatorAddr, s.paymentAddr⟩]) = 0
        rw [(counts_append_applySent s.trace _).2]
        exact hr0
      · show countApply (s.trace ++
          [Event.applySent ⟨s.chainID, s.validatorAddr, s.paymentAddr⟩]) = _
        rw [(counts_append_applySent s.trace _).1,
          show (countApply s.trace = midApplyCount s) from ha0]
        simp [midApplyCount, howner, hget, set_lookup_self hget,
          Phase.postApply]
      · intro j k2 ph2 hth
        rcases set_lookup_cases hth with ⟨rfl, hz⟩ | ⟨hne, hold⟩
        · have hp : ph2 = Phase.signing resp := congrArg Prod.snd hz
          rw [hp]
          rfl
        · exact hpost j k2 ph2 hold
    · intro hcontra
      exact absurd (hregF.symm.trans hcontra) (by decide)
    · intro j k2 b hth
      rcases set_lookup_cases hth with ⟨rfl, hz⟩ | ⟨hne, hold⟩
      · exact Phase.noConfusion (congrArg Prod.snd hz)
      · exact hinv.doneTrue j k2 b hold
  | signing resp =>
    obtain ⟨sig, hsig⟩ := henvS (countSignChallenge s.trace) resp.challenge
    simp only [stepThread, hget, hsig] at h
    injection h with h
    subst h
    have howner : s.owner = some i :=
      hinv.midOwner i k (Phase.signing resp) hget rfl
    have hregF : s.registered = false := by
      cases hr : s.registered
      · rfl
      · exact ((hinv.regTrue hr).2.2 i k (Phase.signing resp) hget
          (Or.inr rfl)).elim
    obtain ⟨hr0, ha0, hpost⟩ := hinv.regFalse hregF
    refine ⟨?_, ?_, ?_, ?_, ?_⟩
    · intro j hj
      have hj2 : s.owner = some j := hj
      obtain rfl : i = j := Option.some.inj (howner.symm.trans hj2)
      exact ⟨k, Phase.registering resp.challengeID sig, set_lookup_self hget,
        rfl⟩
    · intro j k2 ph2 hth hseq
      rcases set_lookup_cases hth with ⟨rfl, hz⟩ | ⟨hne, hold⟩
      · exact howner
      · exact hinv.midOwner j k2 ph2 hold hseq
    · intro _
      refine ⟨?_, ?_, ?_⟩
      · show countRegister (s.trace ++
          [Event.signChallengeInvoked resp.challenge]) = 0
        rw [(counts_append_signChallenge s.trace _).2]
        exact hr0
      · show countApply (s.trace ++
          [Event.signChallengeInvoked resp.challenge]) = _
        rw [(counts_append_signChallenge s.trace _).1,
          show (countApply s.trace = midApplyCount s) from ha0]
        simp [midApplyCount, howner, hget, set_lookup_self hget,
          Phase.postApply]
      · intro j k2 ph2 hth
        rcases set_lookup_cases hth with ⟨rfl, hz⟩ | ⟨hne, hold⟩
        · have hp : ph2 = Phase.registering resp.challengeID sig :=
            congrArg Prod.snd hz
          rw [hp]
          rfl
        · exact hpost j k2 ph2 hold
    · intro hcontra
      exact absurd (hregF.symm.trans hcontra) (by decide)
    · intro j k2 b hth
      rcases set_lookup_cases hth with ⟨rfl, hz⟩ | ⟨hne, hold⟩
      · exact Phase.noConfusion (congrArg Prod.snd hz)
      · exact hinv.doneTrue j k2 b hold
  | registering cid sig =>
    have hrr := henvR (countRegister s.trace) ⟨cid, sig⟩
    simp only [stepThread, hget, hrr] at h
    injection h with h
    subst h
    have howner : s.owner = some i :=
      hinv.midOwner i k (Phase.registering cid sig) hget rfl
    have hregF : s.registered = false := by
      cases hr : s.registered
      · rfl
      · exact ((hinv.regTrue hr).2.2 i k (Phase.registering cid sig) hget
          (Or.inr rfl)).elim
    obtain ⟨hr0, ha0, hpost⟩ := hinv.regFalse hregF
    refine ⟨?_, ?_, ?_, ?_, ?_⟩
    · intro j hj
      exact Option.noConfusion hj
    · intro j k2 ph2 hth hseq
      rcases set_lookup_cases hth with ⟨rfl, hz⟩ | ⟨hne, hold⟩
      · have hp : ph2 = afterRegistered k := congrArg Prod.snd hz
        rw [hp] at hseq
        cases k <;> exact absurd hseq (by decide)
      · have h1 := hinv.midOwner j k2 ph2 hold hseq
        exact absurd (Option.some.inj (howner.symm.trans h1)).symm hne
    · intro hcontra
      exact Bool.noConfusion hcontra
    · intro _
      refine ⟨?_, ?_, ?_⟩
      · show countApply (s.trace ++ [Event.registerSent ⟨cid, sig⟩]) = 1
        rw [(counts_append_registerSent s.trace _).1,
          show (countApply s.trace = midApplyCount s) from ha0]
        simp [midApplyCount, howner, hget, Phase.postApply]
      · show countRegister (s.trace ++ [Event.registerSent ⟨cid, sig⟩]) = 1
        rw [(counts_append_registerSent s.trace _).2, hr0]
      · intro j k2 ph2 hth hcase
        rcases set_lookup_cases hth with ⟨rfl, hz⟩ | ⟨hne, hold⟩
        · have hp : ph2 = afterRegistered k := congrArg Prod.snd hz
          rw [hp] at hcase
          cases k <;> rcases hcase with hc | hc <;>
            first
              | exact Phase.noConfusion hc
              | exact absurd hc (by decide)
        · have h1 := hinv.midOwner j k2 ph2 hold (midPhase_regSeq hcase)
          exact absurd (Option.some.inj (howner.symm.trans h1)).symm hne
    · intro j k2 b hth
      rcases set_lookup_cases hth with ⟨rfl, hz⟩ | ⟨hne, hold⟩
      · have hp : Phase.done b = afterRegistered k := congrArg Prod.snd hz
        cases k with
        | registerOnly => injection hp
        | buildBlock => exact Phase.noConfusion hp
      · exact hinv.doneTrue j k2 b hold
  | signingBuild =>
    have hsb := henvSB (countSignBuild s.trace)
    simp only [stepThread, hget, hsb] at h
    injection h with h
    subst h
    have hregT : s.registered = true := by
      cases hr : s.registered
      · exact absurd ((hinv.regFalse hr).2.2 i k Phase.signingBuild hget)
          (by decide)
      · rfl
    obtain ⟨hA1, hR1, hNoMid⟩ := hinv.regTrue hregT
    refine ⟨?_, ?_, ?_, ?_, ?_⟩
    · intro j hj
      have hj2 : s.owner = some j := hj
      obtain ⟨k2, ph2, hth2, hseq2⟩ := hinv.ownerMid j hj2
      by_cases hji : j = i
      · subst hji
        rw [hget] at hth2
        injection hth2 with hth2
        have hp : ph2 = Phase.signingBuild := (congrArg Prod.snd hth2).symm
        rw [hp] at hseq2
        exact absurd hseq2 (by decide)
      · refine ⟨k2, ph2, ?_, hseq2⟩
        rw [List.getElem?_set_ne (fun hij => hji hij.symm)]
        exact hth2
    · intro j k2 ph2 hth hseq
      rcases set_lookup_cases hth with ⟨rfl, hz⟩ | ⟨hne, hold⟩
      · have hp : ph2 = Phase.building := congrArg Prod.snd hz
        rw [hp] at hseq
        exact absurd hseq (by decide)
      · exact hinv.midOwner j k2 ph2 hold hseq
    · intro hcontra
      exact absurd (hregT.symm.trans hcontra) (by decide)
    · intro _
      refine ⟨?_, ?_, ?_⟩
      · show countApply (s.trace ++ [Event.signBuildInvoked]) = 1
        rw [(counts_append_signBuild s.trace).1]
        exact hA1
      · show countRegister (s.trace ++ [Event.signBuildInvoked]) = 1
        rw [(counts_append_signBuild s.trace).2]
        exact hR1
      · intro j k2 ph2 hth hcase
        rcases set_lookup_cases hth with ⟨rfl, hz⟩ | ⟨hne, hold⟩
        · have hp : ph2 = Phase.building := congrArg Prod.snd hz
          rw [hp] at hcase
          rcases hcase with hc | hc
          · exact Phase.noConfusion hc
          · exact absurd hc (by decide)
        · exact hNoMid j k2 ph2 hold hcase
    · intro j k2 b hth
      rcases set_lookup_cases hth with ⟨rfl, hz⟩ | ⟨hne, hold⟩
      · exact Phase.noConfusion (congrArg Prod.snd hz)
      · exact hinv.doneTrue j k2 b hold
  | building =>
    have hbb := henvB (countBuild s.trace)
    simp only [stepThread, hget, hbb] at h
    injection h with h
    subst h
    have hregT : s.registered = true := by
      cases hr : s.registered
      · exact absurd ((hinv.regFalse hr).2.2 i k Phase.building hget)
          (by decide)
      · rfl
    obtain ⟨hA1, hR1, hNoMid⟩ := hinv.regTrue hregT
    refine ⟨?_, ?_, ?_, ?_, ?_⟩
    · intro j hj
      have hj2 : s.owner = some j := hj
      obtain ⟨k2, ph2, hth2, hseq2⟩ := hinv.ownerMid j hj2
      by_cases hji : j = i
      · subst hji
        rw [hget] at hth2
        injection hth2 with hth2
        have hp : ph2 = Phase.building := (congrArg Prod.snd hth2).symm
        rw [hp] at hseq2
        exact absurd hseq2 (by decide)
      · refine ⟨k2, ph2, ?_, hseq2⟩
        rw [List.getElem?_set_ne (fun hij => hji hij.symm)]
        exact hth2
    · intro j k2 ph2 hth hseq
      rcases set_lookup_cases hth with ⟨rfl, hz⟩ | ⟨hne, hold⟩
      · have hp : ph2 = Phase.done true := congrArg Prod.snd hz
        rw [hp] at hseq
        exact absurd hseq (by decide)
      · exact hinv.midOwner j k2 ph2 hold hseq
    · intro hcontra
      exact absurd (hregT.symm.trans hcontra) (by decide)
    · intro _
      refine ⟨?_, ?_, ?_⟩
      · show countApply (s.trace ++ [Event.buildSent]) = 1
        rw [(counts_append_buildSent s.trace).1]
        exact hA1
      · show countRegister (s.trace ++ [Event.buildSent]) = 1
        rw [(counts_append_buildSent s.trace).2]
        exact hR1
      · intro j k2 ph2 hth hcase
        rcases set_lookup_cases hth with ⟨rfl, hz⟩ | ⟨hne, hold⟩
        · have hp : ph2 = Phase.done true := congrArg Prod.snd hz
          rw [hp] at hcase
          rcases hcase with hc | hc
          · exact Phase.noConfusion hc
          · exact absurd hc (by decide)
        · exact hNoMid j k2 ph2 hold hcase
    · intro j k2 b hth
      rcases set_lookup_cases hth with ⟨rfl, hz⟩ | ⟨hne, hold⟩
      · have hp : Phase.done b = Phase.done true := congrArg Prod.snd hz
        injection hp
      · exact hinv.doneTrue j k2 b hold
  | done b =>
    simp [stepThread, hget] at h

theorem inv_run (env : ConcEnv) (henv : SuccessEnv env) (sched : List Nat)
    (s : Sys) (hinv : Inv s) : Inv (run env sched s) := by
  induction sched generalizing s with
  | nil => exact hinv
  | cons a as ih =>
    show Inv (run env as
      (match stepThread env s a with | some t => t | none => s))
    cases hst : stepThread env s a with
    | none => exact ih s hinv
    | some t => exact ih t (inv_step env henv hst hinv)

/-- Claim C9: under an environment whose calls succeed, in every complete
interleaved execution of `N` concurrent `Register` (and/or `BuildBlock`)
callers on one builder — every schedule after which all threads have
returned — all `N` callers returned success and the trace holds exactly one
apply exchange and one register exchange; in every reachable state the mutex
is held only by a thread inside the registration sequence; and the
sign-and-send build steps are enabled regardless of the mutex and leave it
untouched, so builds proceed independently once registration completed. -/
theorem C9_concurrent_registration (env : ConcEnv) (henv : SuccessEnv env)
    (c v p : String) (kinds : List TKind) (sched : List Nat) :
    (∀ i : Nat, (run env sched (initSys c v p kinds)).owner = some i →
      ∃ (k : TKind) (ph : Phase),
        (run env sched (initSys c v p kinds)).threads[i]? = some (k, ph) ∧
        ph.inRegSeq = true) ∧
    ((∀ j : Nat, j < kinds.length → ∃ (k : TKind) (b : Bool),
        (run env sched (initSys c v p kinds)).threads[j]? =
          some (k, Phase.done b)) →
      kinds ≠ [] →
      (∀ j : Nat, j < kinds.length → ∃ k : TKind,
        (run env sched (initSys c v p kinds)).threads[j]? =
          some (k, Phase.done true)) ∧
      countApply (run env sched (initSys c v p kinds)).trace = 1 ∧
      countRegister (run env sched (initSys c v p kinds)).trace = 1) ∧
    (∀ (t : Sys) (i : Nat) (k : TKind) (ph : Phase),
      t.threads[i]? = some (k, ph) →
      ph = Phase.signingBuild ∨ ph = Phase.building →
      ∃ u : Sys, stepThread env t i = some u ∧ u.owner = t.owner) := by
  have hinv : Inv (run env sched (initSys c v p kinds)) :=
    inv_run env henv sched _ (inv_init c v p kinds)
  have hlen : (run env sched (initSys c v p kinds)).threads.length =
      kinds.length := by
    rw [run_threads_length]
    simp [initSys]
  refine ⟨hinv.ownerMid, ?_, ?_⟩
  · intro hdone hne
    have hregT : (run env sched (initSys c v p kinds)).registered = true := by
      have h0 : 0 < kinds.length := List.length_pos.mpr hne
      obtain ⟨k0, b0, hth0⟩ := hdone 0 h0
      cases hr : (run env sched (initSys c v p kinds)).registered
      · exact Bool.noConfusion
          ((hinv.regFalse hr).2.2 0 k0 (Phase.done b0) hth0)
      · rfl
    obtain ⟨hA1, hR1, -⟩ := hinv.regTrue hregT
    refine ⟨?_, hA1, hR1⟩
    intro j hj
    obtain ⟨k0, b0, hth0⟩ := hdone j hj
    have hb := hinv.doneTrue j k0 b0 hth0
    rw [hb] at hth0
    exact ⟨k0, hth0⟩
  · intro t i k ph hth hph
    rcases hph with rfl | rfl
    · have hsb := henv.2.2.2.1 (countSignBuild t.trace)
      refine ⟨{ t with trace := t.trace ++ [Event.signBuildInvoked],
                       threads := t.threads.set i (k, Phase.building) },
        ?_, rfl⟩
      simp [stepThread, hth, hsb]
    · have hbb := henv.2.2.2.2 (countBuild t.trace)
      refine ⟨{ t with trace := t.trace ++ [Event.buildSent],
                       threads := t.threads.set i (k, Phase.done true) },
        ?_, rfl⟩
      simp [stepThread, hth, hbb]

/-- Claim C9 witness: two concurrent callers — one bare `Register`, one
`BuildBlock` — under a fully interleaved schedule both finish successfully
with exactly one apply and one register exchange in the trace. -/
theorem C9_concurrent_registration_witness :
    countApply (run concEnvOk [0, 0, 0, 0, 0, 1, 1, 1, 1]
      (initSys "c" "v" "p" [TKind.registerOnly, TKind.buildBlock])).trace =
      1 ∧
    countRegister (run concEnvOk [0, 0, 0, 0, 0, 1, 1, 1, 1]
      (initSys "c" "v" "p" [TKind.registerOnly, TKind.buildBlock])).trace =
      1 := by
  have h := (C9_concurrent_registration concEnvOk
    ⟨fun _ => ⟨⟨"challenge-id-0", [1, 2]⟩, rfl⟩, fun _ ch => ⟨0 :: ch, rfl⟩,
     fun _ _ => rfl, fun _ => rfl, fun _ => rfl⟩
    "c" "v" "p" [TKind.registerOnly, TKind.buildBlock]
    [0, 0, 0, 0, 0, 1, 1, 1, 1]).2.1 ?_ ?_
  · exact ⟨h.2.1, h.2.2⟩
  · intro j hj
    match j, hj with
    | 0, _ => exact ⟨TKind.registerOnly, true, rfl⟩
    | 1, _ => exact ⟨TKind.buildBlock, true, rfl⟩
  · simp

end Concurrent

/-- Claim C10: `do` copies the `baseurl` pointer stored by `NewBuilder` and
assigns the endpoint path through it, so after a `do` call the very
`url.URL` object passed to `NewBuilder` has `Path` equal to that call's
endpoint path (`/v0/build` for `BuildBlock`, `/v0/register` for `Register`)
while its `Scheme` and `Host` are unchanged; no other object is touched; and
the object is genuinely mutated whenever its path differed, i.e. the
constructor-supplied URL is not treated as read-only. -/
theorem C10_do_mutates_shared_baseurl :
    (∀ (heap : Nat → URL) (apiURL : Nat) (path : String),
      (doURL heap (NewBuilderRef apiURL) path).1 apiURL =
        { heap apiURL with Path := path }) ∧
    (∀ (heap : Nat → URL) (apiURL : Nat) (path : String),
      ((doURL heap (NewBuilderRef apiURL) path).1 apiURL).Path = path ∧
      ((doURL heap (NewBuilderRef apiURL) path).1 apiURL).Scheme =
        (heap apiURL).Scheme ∧
      ((doURL heap (NewBuilderRef apiURL) path).1 apiURL).Host =
        (heap apiURL).Host) ∧
    (∀ (heap : Nat → URL) (apiURL a : Nat) (path : String), a ≠ apiURL →
      (doURL heap (NewBuilderRef apiURL) path).1 a = heap a) ∧
    (∀ (heap : Nat → URL) (apiURL : Nat),
      (heap apiURL).Path ≠ buildEndpoint →
      (doURL heap (NewBuilderRef apiURL) buildEndpoint).1 apiURL ≠
        heap apiURL) ∧
    (∀ (heap : Nat → URL) (apiURL : Nat),
      ((doURL heap (NewBuilderRef apiURL) registerEndpoint).1 apiURL).Path =
        registerEndpoint) := by
  refine ⟨?_, ?_, ?_, ?_, ?_⟩
  · intro heap apiURL path
    simp [doURL, NewBuilderRef]
  · intro heap apiURL path
    refine ⟨?_, ?_, ?_⟩ <;> simp [doURL, NewBuilderRef]
  · intro heap apiURL a path hne
    simp [doURL, NewBuilderRef, hne]
  · intro heap apiURL hpath heq
    apply hpath
    rw [← heq]
    simp [doURL, NewBuilderRef]
  · intro heap apiURL
    simp [doURL, NewBuilderRef]

/-- Claim C10 witness: the aliasing statement applied at a concrete heap
holding the default API URL — the caller's object now carries the build
endpoint path, a distinct object is untouched, and the object really
changed. -/
theorem C10_do_mutates_shared_baseurl_witness :
    (doURL (fun _ => ⟨"https", "api.mekatek.xyz", ""⟩) (NewBuilderRef 0)
        buildEndpoint).1 0 =
      { Scheme := "https", Host := "api.mekatek.xyz", Path := "/v0/build" } ∧
    (doURL (fun _ => ⟨"https", "api.mekatek.xyz", ""⟩) (NewBuilderRef 0)
        buildEndpoint).1 1 = ⟨"https", "api.mekatek.xyz", ""⟩ ∧
    (doURL (fun _ => ⟨"https", "api.mekatek.xyz", ""⟩) (NewBuilderRef 0)
        buildEndpoint).1 0 ≠ ⟨"https", "api.mekatek.xyz", ""⟩ :=
  ⟨(C10_do_mutates_shared_baseurl.1 _ 0 buildEndpoint).trans rfl,
   C10_do_mutates_shared_baseurl.2.2.1 _ 0 1 buildEndpoint (by decide),
   C10_do_mutates_shared_baseurl.2.2.2.1 _ 0 (by decide)⟩

end Mekabuild
